import Mathlib

/-!
Verification of the Intear Wallet connector (`src/index.ts`).

Shallow embedding of the connector's pure logic and event-driven flows:

* the base58 / base64 codecs (`base58Encode`, `base58Decode`, `base64Encode`,
  `base64Decode`),
* the sign-in challenge envelope built by `requestConnection`,
* the popup and native-app transport flows (`openPopupFlow`,
  `openNativeAppFlow`) as explicit event-step state machines,
* connector session state: `loadFrom`, the persistence write order of the
  `connected` success handler, `disconnect`, and the precondition checks of
  `requestConnection` / `signMessage` / `sendTransactions`.

External platform capabilities (WebCrypto Ed25519/SHA-256, `btoa`/`atob`,
`TextEncoder`) are out of scope of the repository and are modelled as
executable capability functions with the standard guarantees the code relies
on (an honestly produced signature verifies; the codecs invert each other).
-/

namespace IntearWallet


/-! ## Little-endian digit arithmetic shared by the two hand-rolled codecs

The source implements base58 with two nested loops: an inner loop that folds
one more byte (or base58 digit on the decode side) into a little-endian digit
accumulator, and a trailing `while (carry > 0)` loop that appends the
remaining carry digits.  `carryDigits` is the trailing loop and `addScaled`
is the inner loop; both are generic in the target base `B` and the shift
multiplier `M` (`B = 58, M = 256` when encoding, `B = 256, M = 58` when
decoding). -/

/-- Fuel-driven implementation of the carry loop (structural recursion so
that concrete values reduce inside the kernel). -/
def carryDigitsGo (B : Nat) : Nat → Nat → List Nat
  | 0, _ => []
  | fuel + 1, c =>
      if c = 0 ∨ B < 2 then [] else c % B :: carryDigitsGo B fuel (c / B)

/-- The `while (carry > 0) { push(carry % B); carry = carry / B }` loop. -/
def carryDigits (B : Nat) (c : Nat) : List Nat := carryDigitsGo B c c

/-- The inner per-digit loop: fold one new unit `c` into the little-endian
digit list `ds`, where each existing digit is shifted by `M`. -/
def addScaled (B M : Nat) : List Nat → Nat → List Nat
  | [], c => carryDigits B c
  | d :: ds, c => ((c + d * M) % B) :: addScaled B M ds ((c + d * M) / B)

/-- Canonical little-endian digit list: the most significant digit (last
element) is nonzero.  Vacuously true for `[]`. -/
def Canon (L : List Nat) : Prop := L.getLast? ≠ some 0

/-! ## Base58 codec (`base58Encode` / `base58Decode`, src/index.ts 31-116) -/

/-- The `"123456789ABCDEFGHJKLMNPQRSTUVWXYZabcdefghijkmnopqrstuvwxyz"`. -/
def ALPHABET58 : List Char :=
  "123456789ABCDEFGHJKLMNPQRSTUVWXYZabcdefghijkmnopqrstuvwxyz".data

/-- The `ALPHABET[d]` of the source (digits produced are always `< 58`). -/
def b58Char (d : Nat) : Char := ALPHABET58.getD d '1'

/-- The `ALPHABET_MAP` lookup of the source decoder: index of `c` in the
alphabet, `none` when `c` is not a base58 character. -/
def b58Idx (c : Char) : Option Nat := ALPHABET58.findIdx? (· == c)

/-- The `base58Encode` (src/index.ts 31-70): count leading zero bytes, fold the
remaining bytes into a little-endian base58 digit accumulator, then emit
`'1'` per leading zero followed by the digits most-significant-first. -/
def base58Encode (bs : List Nat) : String :=
  let zeroCount := (bs.takeWhile (· == 0)).length
  let digits := (bs.drop zeroCount).foldl (addScaled 58 256) []
  ⟨List.replicate zeroCount '1' ++ digits.reverse.map b58Char⟩

/-- The `base58Decode` (src/index.ts 77-116) on the underlying character list:
count leading `'1'`s, fold the remaining characters into a little-endian
base256 accumulator (`none` on an invalid character, where the source
throws), then emit a zero byte per leading `'1'` followed by the bytes
most-significant-first. -/
def base58DecodeCore (cs : List Char) : Option (List Nat) :=
  let zeroCount := (cs.takeWhile (· == '1')).length
  match (cs.drop zeroCount).foldlM
      (fun bytes c => (b58Idx c).map (addScaled 256 58 bytes)) [] with
  | some bytes => some (List.replicate zeroCount 0 ++ bytes.reverse)
  | none => none

def base58Decode (s : String) : Option (List Nat) := base58DecodeCore s.data

/-! ## Base64 codec (`base64Encode` / `base64Decode`, src/index.ts 12-24)

The source delegates to the platform built-ins `btoa` / `atob` applied to a
latin-1 binary string (`String.fromCharCode` / `charCodeAt` are the identity
on byte values).  `btoaModel` / `atobModel` are the standard RFC 4648 padded
base64 codec those built-ins implement, working directly on byte values. -/

/-- The `"ABCDEFGHIJKLMNOPQRSTUVWXYZabcdefghijklmnopqrstuvwxyz0123456789+/"`. -/
def ALPHABET64 : List Char :=
  "ABCDEFGHIJKLMNOPQRSTUVWXYZabcdefghijklmnopqrstuvwxyz0123456789+/".data

def b64Char (s : Nat) : Char := ALPHABET64.getD s 'A'

def b64Idx (c : Char) : Option Nat := ALPHABET64.findIdx? (· == c)

/-- The `btoa` on a binary string: three bytes become four sextet characters,
with `'='` padding for a 1- or 2-byte tail. -/
def btoaModel : List Nat → List Char
  | [] => []
  | [b1] => [b64Char (b1 / 4), b64Char (b1 % 4 * 16), '=', '=']
  | [b1, b2] =>
      [b64Char (b1 / 4), b64Char (b1 % 4 * 16 + b2 / 16),
        b64Char (b2 % 16 * 4), '=']
  | b1 :: b2 :: b3 :: rest =>
      b64Char (b1 / 4) :: b64Char (b1 % 4 * 16 + b2 / 16)
        :: b64Char (b2 % 16 * 4 + b3 / 64) :: b64Char (b3 % 64)
        :: btoaModel rest

/-- The `atob` on a padded base64 string (the shape `btoa` produces): four
characters become three bytes, with `'='` padding allowed only in the final
block; `none` where the built-in throws on malformed input. -/
def atobModel : List Char → Option (List Nat)
  | [] => some []
  | c1 :: c2 :: c3 :: c4 :: rest =>
    match b64Idx c1, b64Idx c2 with
    | some s1, some s2 =>
      if c3 = '=' then
        if c4 = '=' ∧ rest = [] then some [s1 * 4 + s2 / 16] else none
      else
        match b64Idx c3 with
        | some s3 =>
          if c4 = '=' then
            if rest = [] then
              some [s1 * 4 + s2 / 16, s2 % 16 * 16 + s3 / 4]
            else none
          else
            match b64Idx c4 with
            | some s4 =>
              (atobModel rest).map
                (fun tail => (s1 * 4 + s2 / 16) :: (s2 % 16 * 16 + s3 / 4)
                  :: (s3 % 4 * 64 + s4) :: tail)
            | none => none
        | none => none
    | _, _ => none
  | _ => none

/-- The `base64Encode` (src/index.ts 22-24): `btoa(String.fromCharCode(...bytes))`. -/
def base64Encode (bs : List Nat) : String := ⟨btoaModel bs⟩

/-- The base64url normalisation of `base64Decode`: every dash becomes a
plus and every underscore becomes a slash before `atob` is applied. -/
def urlSafeNorm (c : Char) : Char :=
  if c = '-' then '+' else if c = '_' then '/' else c

/-- The `base64Decode` (src/index.ts 12-15): normalise the base64url characters,
`atob`, and read the byte values back off the binary string. -/
def base64Decode (s : String) : Option (List Nat) :=
  atobModel (s.data.map urlSafeNorm)

/-! ## Capability models for the external platform primitives

The spec (§1) places WebCrypto (Ed25519, SHA-256) and `TextEncoder` out of
scope, as capability interfaces with standard guarantees.  They are modelled
here as executable functions: a keypair is identified by a natural number
whose raw public key is a 32-byte encoding of that number; a signature is
the signer's public key bytes followed by the signed digest, and
verification recomputes exactly that — giving the single guarantee the code
relies on, that an honestly produced signature verifies against the matching
public key over the same bytes. -/

/-- UTF-8 encoding of one character (the `TextEncoder` capability). -/
def utf8EncodeCharBytes (c : Char) : List Nat :=
  let n := c.toNat
  if n < 128 then [n]
  else if n < 2048 then [192 + n / 64, 128 + n % 64]
  else if n < 65536 then [224 + n / 4096, 128 + n / 64 % 64, 128 + n % 64]
  else [240 + n / 262144, 128 + n / 4096 % 64, 128 + n / 64 % 64,
    128 + n % 64]

/-- The `new TextEncoder().encode(s)`. -/
def strBytes (s : String) : List Nat := s.data.bind utf8EncodeCharBytes

/-- The `crypto.subtle.exportKey('raw', publicKey)`: the 32 raw public key bytes
of the keypair identified by `k`. -/
def pubKeyBytes (k : Nat) : List Nat :=
  (List.range 32).map (fun i => k / 256 ^ i % 256)

/-- The `crypto.subtle.sign({name:'Ed25519'}, privateKey, data)`: symbolic
signature bytes binding the signer's public key to the signed data. -/
def ed25519SignBytes (k : Nat) (data : List Nat) : List Nat :=
  pubKeyBytes k ++ data.map (· % 256)

/-- Ed25519 verification over raw bytes: accepts exactly the signature an
honest signer with this public key produces over these bytes. -/
def ed25519VerifyBytes (pk : List Nat) (data : List Nat) (sig : List Nat) :
    Bool :=
  sig == pk ++ data.map (· % 256)

/-- The `crypto.subtle.digest('SHA-256', bytes)`: a deterministic compressing
function onto 32-byte digests. -/
def sha256Model (bs : List Nat) : List Nat :=
  carryDigits 256 (Nat.ofDigits 257 (bs.map (· % 256 + 1)) % 2 ^ 256)

/-! ## The sign-in challenge envelope (`requestConnection`,
src/index.ts 710-764) -/

/-- The `signInData` object sent to the wallet (src/index.ts 756-764). -/
structure SignInData where
  publicKey : String
  networkId : String
  nonce : Nat
  message : String
  signature : String
  version : String
  actualOrigin : String
deriving DecidableEq

/-- The envelope construction of `requestConnection` after the `message`
JSON payload has been built (src/index.ts 710-764): derive the base58 public
key, sign `SHA-256(UTF8(nonce + "|" + message))` with the fresh ephemeral
key `k` and format both key and signature as `ed25519:<base58>`. -/
def buildSignInData (k : Nat) (networkId : String) (nonceMs : Nat)
    (message : String) (origin : String) : SignInData :=
  let publicKeyBase58 := base58Encode (pubKeyBytes k)
  let publicKey := "ed25519:" ++ publicKeyBase58
  let messageToHash := toString nonceMs ++ "|" ++ message
  let hashedMessage := sha256Model (strBytes messageToHash)
  let signatureBytes := ed25519SignBytes k hashedMessage
  let signatureBase58 := base58Encode signatureBytes
  let signature := "ed25519:" ++ signatureBase58
  { publicKey := publicKey, networkId := networkId, nonce := nonceMs,
    message := message, signature := signature, version := "V2",
    actualOrigin := origin }

/-- Strips the literal `ed25519:` tag from a wire-format key or signature. -/
def stripEd25519Tag (s : String) : Option (List Char) :=
  match s.data with
  | 'e' :: 'd' :: '2' :: '5' :: '5' :: '1' :: '9' :: ':' :: rest => some rest
  | _ => none

/-- The §3 envelope invariant as a checkable predicate: decode the
`publicKey` and `signature` fields from their `ed25519:<base58>` wire form
and verify the signature bytes against the public key bytes over the byte
sequence `nonce-decimal ++ "|" ++ message` (with the SHA-256 pre-hash both
sides of the protocol apply). -/
def verifySignInEnvelope (e : SignInData) : Bool :=
  match stripEd25519Tag e.publicKey, stripEd25519Tag e.signature with
  | some pkChars, some sigChars =>
    match base58DecodeCore pkChars, base58DecodeCore sigChars with
    | some pkBytes, some sigBytes =>
      ed25519VerifyBytes pkBytes
        (sha256Model (strBytes (toString e.nonce ++ "|" ++ e.message)))
        sigBytes
    | _, _ => false
  | _, _ => false

/-! ## Transport flows as event-step state machines

`openPopupFlow` (src/index.ts 146-218) and `openNativeAppFlow`
(src/index.ts 226-303) are event-driven: after setup, all progress happens
in the `message` handler, the window-closed poll, and the WebSocket
callbacks.  Each flow is modelled as a step function over an explicit state,
fed a list of incoming events.  Every call of the promise's
`resolve`/`reject` is recorded in `settlements` (in call order); the
settled outcome of the returned promise is `settlements.head?`, because a
JS promise keeps the first settlement and ignores the rest. -/

/-- Outcome of one flow: the transformed result, the `null` sentinel for
user rejection/closure, or a failure carrying an error message. -/
inductive FlowOutcome (β : Type) where
  | result (r : β)
  | sentinel
  | failure (msg : String)
deriving DecidableEq

/-- One `message` event's `event.data`, as the flows consume it: its `type`
tag, its `message` field (read in the error branch; `""` models a missing
or empty field, both falsy), and an opaque payload standing for the fields
the success transform reads. -/
structure MsgData (α : Type) where
  type_ : String
  message : String
  payload : α
deriving DecidableEq

/-- The `WalletFlowConfig` (src/index.ts 121-138), restricted to the fields the
popup flow reads after the window is open.  `onSuccess` may fail, as the
transform's own exceptions are caught and turned into rejections. -/
structure PopupConfig (α β : Type) where
  walletUrl : String
  sendMessageType : String
  successMessageType : String
  onSuccess : MsgData α → Except String β
  isUserRejection : Option (String → Bool)

/-- The `config.isUserRejection?.(msg)` optional-call: `undefined` (absent
predicate) is falsy. -/
def rejects {σ : Type} (p : Option (σ → Bool)) (msg : σ) : Bool :=
  match p with
  | none => false
  | some f => f msg

/-- The outcome recorded when a success-typed message is handled:
`resolve(await onSuccess(data))`, with a failing transform rejecting. -/
def successOutcome {α β : Type} (cfg : PopupConfig α β) (d : MsgData α) :
    FlowOutcome β :=
  match cfg.onSuccess d with
  | .ok r => .result r
  | .error e => .failure e

/-- The outcome recorded when an error-typed message is handled:
`resolve(null)` under the rejection predicate, otherwise
`reject(new Error(message || 'Operation failed'))`. -/
def errorOutcome (isRej : Option (String → Bool)) (msg : String)
    (β : Type) : FlowOutcome β :=
  if rejects isRej msg then .sentinel
  else .failure (if msg = "" then "Operation failed" else msg)

/-- Events a popup flow can observe: a cross-document message (with its
origin), or a poll tick that found the popup window closed. -/
inductive PopupEvent (α : Type) where
  | message (origin : String) (data : MsgData α)
  | closePoll
deriving DecidableEq

/-- Popup flow state: whether the `message` listener is still registered,
whether the close-poll interval is still scheduled, the `resultReceived`
flag, the message types posted to the popup (the `ready` reply), and every
`resolve`/`reject` call in order. -/
structure PopupState (β : Type) where
  listenerOn : Bool
  intervalOn : Bool
  resultReceived : Bool
  posted : List String
  settlements : List (FlowOutcome β)
deriving DecidableEq

def popupInit {β : Type} : PopupState β :=
  { listenerOn := true, intervalOn := true, resultReceived := false,
    posted := [], settlements := [] }

/-- One step of `openPopupFlow`'s handlers (src/index.ts 157-217):
`messageHandler` filters on origin, replies to `ready`, settles once on the
success type or on `error` (running `cleanup` — listener removed, interval
cleared); the interval callback settles with the sentinel when the window
was closed before a result. -/
def stepPopup {α β : Type} (cfg : PopupConfig α β) (st : PopupState β) :
    PopupEvent α → PopupState β
  | .message origin d =>
    if ¬ st.listenerOn then st
    else if origin ≠ cfg.walletUrl then st
    else if d.type_ = "ready" then
      { st with posted := st.posted ++ [cfg.sendMessageType] }
    else if d.type_ = cfg.successMessageType ∧ ¬ st.resultReceived then
      { st with
        resultReceived := true
        listenerOn := false
        intervalOn := false
        settlements := st.settlements ++ [successOutcome cfg d] }
    else if d.type_ = "error" ∧ ¬ st.resultReceived then
      { st with
        resultReceived := true
        listenerOn := false
        intervalOn := false
        settlements := st.settlements
          ++ [errorOutcome cfg.isUserRejection d.message β] }
    else st
  | .closePoll =>
    if st.intervalOn ∧ ¬ st.resultReceived then
      { st with
        listenerOn := false
        intervalOn := false
        settlements := st.settlements ++ [FlowOutcome.sentinel] }
    else st

def runPopup {α β : Type} (cfg : PopupConfig α β)
    (events : List (PopupEvent α)) : PopupState β :=
  events.foldl (stepPopup cfg) popupInit

/-- An event that makes the live popup flow settle: a correctly-originated
non-`ready` message of the success or error type, or a closed-window poll
tick. -/
def popupTerminal {α β : Type} (cfg : PopupConfig α β) :
    PopupEvent α → Prop
  | .message origin d =>
    origin = cfg.walletUrl ∧ d.type_ ≠ "ready"
      ∧ (d.type_ = cfg.successMessageType ∨ d.type_ = "error")
  | .closePoll => True

instance {α β : Type} (cfg : PopupConfig α β) (e : PopupEvent α) :
    Decidable (popupTerminal cfg e) := by
  cases e with
  | message origin d => exact inferInstanceAs (Decidable (_ ∧ _ ∧ _))
  | closePoll => exact inferInstanceAs (Decidable True)

/-- One frame received from the logout bridge, as
`openNativeAppFlow.onmessage` consumes it after `JSON.parse`: an optional
`session_id` (string; `""` and absence are both falsy), the `type` tag, the
`message` field, and the opaque payload for the success transform. -/
structure NativeFrame (α : Type) where
  sessionId : Option String
  type_ : String
  message : String
  payload : α
deriving DecidableEq

/-- The `data.session_id` truthiness. -/
def sessionTruthy : Option String → Bool
  | none => false
  | some s => s ≠ ""

/-- Events a native-app flow can observe: a socket frame (`none` models a
frame `JSON.parse` rejects, which the handler ignores), the socket `error`
callback, or the socket `close` callback. -/
inductive NativeEvent (α : Type) where
  | frame (d : Option (NativeFrame α))
  | sockError
  | sockClose
deriving DecidableEq

/-- The configuration fields the native flow reads after connecting. -/
structure NativeConfig (α β : Type) where
  sendMessageType : String
  successMessageType : String
  onSuccess : NativeFrame α → Except String β
  isUserRejection : Option (String → Bool)

def nativeSuccessOutcome {α β : Type} (cfg : NativeConfig α β)
    (d : NativeFrame α) : FlowOutcome β :=
  match cfg.onSuccess d with
  | .ok r => .result r
  | .error e => .failure e

/-- Native flow state: whether the socket is still open (frames are only
delivered on an open socket; `cleanup` closes it), the `resultReceived`
flag, whether the payload was sent and the deep link fired, and every
`resolve`/`reject` call in order. -/
structure NativeState (β : Type) where
  wsOpen : Bool
  resultReceived : Bool
  sentPayload : Bool
  deepLinked : Bool
  settlements : List (FlowOutcome β)
deriving DecidableEq

def nativeInit {β : Type} : NativeState β :=
  { wsOpen := true, resultReceived := false, sentPayload := false,
    deepLinked := false, settlements := [] }

/-- One step of `openNativeAppFlow`'s callbacks (src/index.ts 248-301):
`onmessage` sends the payload and fires the deep link on a truthy
`session_id`, settles once on the success type or on `error` (running
`cleanup`, which closes the socket); `onerror` rejects if no result was
received (and runs `cleanup`) — but does not set `resultReceived`;
`onclose` resolves the sentinel if no result was received. -/
def stepNative {α β : Type} (cfg : NativeConfig α β) (st : NativeState β) :
    NativeEvent α → NativeState β
  | .frame none => st
  | .frame (some d) =>
    if ¬ st.wsOpen then st
    else if sessionTruthy d.sessionId ∧ ¬ st.resultReceived then
      { st with sentPayload := true, deepLinked := true }
    else if d.type_ = cfg.successMessageType ∧ ¬ st.resultReceived then
      { st with
        resultReceived := true
        wsOpen := false
        settlements := st.settlements ++ [nativeSuccessOutcome cfg d] }
    else if d.type_ = "error" ∧ ¬ st.resultReceived then
      { st with
        resultReceived := true
        wsOpen := false
        settlements := st.settlements
          ++ [errorOutcome cfg.isUserRejection d.message β] }
    else st
  | .sockError =>
    if ¬ st.resultReceived then
      { st with
        wsOpen := false
        settlements := st.settlements
          ++ [.failure "WebSocket connection error to logout bridge"] }
    else st
  | .sockClose =>
    if ¬ st.resultReceived then
      { st with
        wsOpen := false
        settlements := st.settlements ++ [FlowOutcome.sentinel] }
    else { st with wsOpen := false }

def runNative {α β : Type} (cfg : NativeConfig α β)
    (events : List (NativeEvent α)) : NativeState β :=
  events.foldl (stepNative cfg) nativeInit

/-- An event that forces the native flow to have settled: a terminal frame
(no truthy session id, success or error type) while the socket is open, or
either socket callback. -/
def nativeTerminal {α β : Type} (cfg : NativeConfig α β) :
    NativeEvent α → Prop
  | .frame none => False
  | .frame (some d) =>
    sessionTruthy d.sessionId = false
      ∧ (d.type_ = cfg.successMessageType ∨ d.type_ = "error")
  | .sockError => True
  | .sockClose => True

instance {α β : Type} (cfg : NativeConfig α β) (e : NativeEvent α) :
    Decidable (nativeTerminal cfg e) := by
  cases e with
  | frame d =>
    cases d with
    | none => exact inferInstanceAs (Decidable False)
    | some d => exact inferInstanceAs (Decidable (_ ∧ _))
  | sockError => exact inferInstanceAs (Decidable True)
  | sockClose => exact inferInstanceAs (Decidable True)

/-! ## Connector and session state (src/index.ts 451-828)

The `Storage` interface is a string-keyed map of opaque values; the
connector holds the in-memory endpoints and at most one connected-account
handle.  Each public operation is embedded as a pure function over this
state; the fallible ones return `Except`, and the ones whose side effects
matter for the claims also return the ordered list of effects they perform
before dispatching to (or instead of reaching) the transport layer. -/

/-- The `INTEAR_NATIVE_WALLET_URL` (src/index.ts 5). -/
def INTEAR_NATIVE_WALLET_URL : String := "intear://"

def STORAGE_KEY_ACCOUNT_ID : String := "accountId"

def STORAGE_KEY_APP_PRIVATE_KEY : String := "appPrivateKey"

def STORAGE_KEY_WALLET_URL : String := "walletUrl"

def STORAGE_KEY_LOGOUT_BRIDGE_URL : String := "logoutBridgeUrl"

/-- A value held by the `Storage` interface: a string (endpoints, account
id) or an exported private-key JWK, identified by its keypair id. -/
inductive StoredVal where
  | str (s : String)
  | jwk (k : Nat)
deriving DecidableEq

/-- The `Storage` interface as a total map to optional values (`none` is
the `null` of a missing key). -/
def Store : Type := String → Option StoredVal

def storeSet (s : Store) (key : String) (v : StoredVal) : Store :=
  fun k => if k = key then some v else s k

def storeRemove (s : Store) (key : String) : Store :=
  fun k => if k = key then none else s k

def emptyStore : Store := fun _ => none

/-- JS truthiness of a retrieved storage value (`null`, `undefined` and
`""` are falsy; objects are truthy). -/
def truthyVal : Option StoredVal → Bool
  | none => false
  | some (.str s) => s ≠ ""
  | some (.jwk _) => true

def valAsString : StoredVal → String
  | .str s => s
  | .jwk _ => ""

def valToStrOpt : Option StoredVal → Option String
  | some (.str s) => some s
  | some (.jwk _) => none
  | none => none

/-- JS falsiness of an in-memory endpoint field (`undefined`/`null` or the
empty string). -/
def falsyStr : Option String → Bool
  | none => true
  | some s => s = ""

/-- The `ConnectedAccount`'s own fields (src/index.ts 451-463); the
back-reference to the connector is modelled by passing the connector state
to the operations explicitly. -/
structure ConnectedAccount where
  accountId : String
  disconnected : Bool
deriving DecidableEq

/-- The connector's in-memory fields (src/index.ts 649-653); the store is
threaded separately. -/
structure ConnectorState where
  connectedAccount : Option ConnectedAccount
  walletUrl : Option String
  logoutBridgeUrl : Option String
deriving DecidableEq

/-- The `IntearWalletConnector.loadFrom` (src/index.ts 660-671): read the three
rehydratable keys; a truthy account id yields a fresh (not disconnected)
handle, anything else yields no session. -/
def loadFrom (store : Store) : ConnectorState :=
  let accountId := store STORAGE_KEY_ACCOUNT_ID
  let walletUrl := store STORAGE_KEY_WALLET_URL
  let logoutBridgeUrl := store STORAGE_KEY_LOGOUT_BRIDGE_URL
  { connectedAccount :=
      if truthyVal accountId then
        some { accountId := valAsString (accountId.getD (.str ""))
               disconnected := false }
      else none
    walletUrl := valToStrOpt walletUrl
    logoutBridgeUrl := valToStrOpt logoutBridgeUrl }

/-- The `disconnect` (src/index.ts 815-828): with an active session, mark the
handle disconnected, clear both in-memory endpoints and remove all four
persisted keys (each removal is total — removing an absent key is a no-op,
never a failure); with no session, fail with the not-connected error. -/
def disconnect (st : ConnectorState) (store : Store) :
    Except String (ConnectorState × Store × ConnectedAccount) :=
  match st.connectedAccount with
  | some h =>
    .ok ({ connectedAccount := none, walletUrl := none,
           logoutBridgeUrl := none },
      storeRemove (storeRemove (storeRemove
        (storeRemove store STORAGE_KEY_ACCOUNT_ID)
        STORAGE_KEY_APP_PRIVATE_KEY) STORAGE_KEY_WALLET_URL)
        STORAGE_KEY_LOGOUT_BRIDGE_URL,
      { h with disconnected := true })
  | none => .error "Account is not connected"

/-- The four removals of `disconnect`, in source order (src/index.ts
821-824), for reasoning about intermediate store states. -/
def disconnectRemovals : List String :=
  [STORAGE_KEY_ACCOUNT_ID, STORAGE_KEY_APP_PRIVATE_KEY,
   STORAGE_KEY_WALLET_URL, STORAGE_KEY_LOGOUT_BRIDGE_URL]

/-- NEP-413 payload (src/index.ts 349-373), with the nonce as raw bytes. -/
structure Nep413Payload where
  message : String
  nonce : List Nat
  recipient : String
  callbackUrl : Option String
  state : Option String
deriving DecidableEq

/-- Side effects an operation can perform before (or instead of) settling:
ephemeral key generation, a storage read, and opening the transport
channel. -/
inductive Effect where
  | keyGen
  | storageGet (key : String)
  | openPopup
  | openWebSocket
deriving DecidableEq

/-- The `openWalletFlow` (src/index.ts 311-317): the native marker selects the
WebSocket bridge, anything else the popup window. -/
def openEffect (walletUrl : String) : Effect :=
  if walletUrl = INTEAR_NATIVE_WALLET_URL then .openWebSocket else .openPopup

/-- The `ConnectionOptions` (src/index.ts 412-432). -/
structure ConnectionOptions where
  networkId : Option String
  walletUrl : Option String
  logoutBridgeUrl : Option String
  messageToSign : Option Nep413Payload

/-- The effect trace and early-error behaviour of `requestConnection`
(src/index.ts 694-766): the already-connected and nonce-length checks run
before the ephemeral keypair is generated and before any transport channel
is opened. -/
def requestConnectionSteps (st : ConnectorState) (options : ConnectionOptions) :
    List Effect × Option String :=
  if st.connectedAccount.isSome then ([], some "Already connected")
  else if (match options.messageToSign with
    | some m => m.nonce.length ≠ 32
    | none => false : Bool) then ([], some "Nonce must be 32 bytes")
  else
    ([Effect.keyGen,
      openEffect (options.walletUrl.getD "https://wallet.intear.tech")], none)

/-- The effect trace and early-error behaviour of
`ConnectedAccount.signMessage` (src/index.ts 478-558): disconnected check,
nonce-length check, endpoint availability check, then the storage read of
the persisted key (which may find nothing), then the transport dispatch. -/
def signMessageSteps (h : ConnectedAccount) (conn : ConnectorState)
    (store : Store) (mts : Nep413Payload) : List Effect × Option String :=
  if h.disconnected then ([], some "Account is disconnected")
  else if mts.nonce.length ≠ 32 then ([], some "Nonce must be 32 bytes")
  else if falsyStr conn.walletUrl ∨ falsyStr conn.logoutBridgeUrl then
    ([], some "Wallet URL not available")
  else if ¬ truthyVal (store STORAGE_KEY_APP_PRIVATE_KEY) then
    ([Effect.storageGet STORAGE_KEY_APP_PRIVATE_KEY],
      some "Private key not found in storage")
  else
    ([Effect.storageGet STORAGE_KEY_APP_PRIVATE_KEY,
      openEffect (conn.walletUrl.getD "")], none)

/-- The effect trace and early-error behaviour of
`ConnectedAccount.sendTransactions` (src/index.ts 567-638): as
`signMessageSteps` but with no nonce to validate. -/
def sendTransactionsSteps (h : ConnectedAccount) (conn : ConnectorState)
    (store : Store) : List Effect × Option String :=
  if h.disconnected then ([], some "Account is disconnected")
  else if falsyStr conn.walletUrl ∨ falsyStr conn.logoutBridgeUrl then
    ([], some "Wallet URL not available")
  else if ¬ truthyVal (store STORAGE_KEY_APP_PRIVATE_KEY) then
    ([Effect.storageGet STORAGE_KEY_APP_PRIVATE_KEY],
      some "Private key not found in storage")
  else
    ([Effect.storageGet STORAGE_KEY_APP_PRIVATE_KEY,
      openEffect (conn.walletUrl.getD "")], none)

/-- One account entry of the wallet's `connected` payload. -/
structure WalletAccount where
  accountId : String
deriving DecidableEq

/-- The wallet's signed-message object inside the `connected` payload. -/
structure WalletSignedMessage where
  accountId : String
  publicKey : String
  signature : String
  state : Option String
deriving DecidableEq

/-- The fields of the wallet's `connected` success payload that the
`onSuccess` handler reads (src/index.ts 773-806).  `accounts = none`
models a missing list. -/
structure ConnectedResponse where
  accounts : Option (List WalletAccount)
  walletUrl : String
  signedMessage : Option WalletSignedMessage
deriving DecidableEq

/-- The `SignedMessage` returned to the caller (src/index.ts 378-395). -/
structure SignedMessageOut where
  accountId : String
  publicKey : String
  signature : String
  state : Option String
deriving DecidableEq

/-- The `ConnectionResult` (src/index.ts 437-446). -/
structure ConnectionResultModel where
  account : ConnectedAccount
  signedMessage : Option SignedMessageOut
deriving DecidableEq

/-- The four persistence writes of the `connected` handler in source order
(src/index.ts 783-786): exported private key, wallet endpoint, bridge
endpoint, account id last. -/
def establishWrites (privateKeyJwk : StoredVal)
    (responseWalletUrl logoutBridgeUrl accountId : String) :
    List (String × StoredVal) :=
  [(STORAGE_KEY_APP_PRIVATE_KEY, privateKeyJwk),
   (STORAGE_KEY_WALLET_URL, .str responseWalletUrl),
   (STORAGE_KEY_LOGOUT_BRIDGE_URL, .str logoutBridgeUrl),
   (STORAGE_KEY_ACCOUNT_ID, .str accountId)]

def applyWrites (store : Store) (ws : List (String × StoredVal)) : Store :=
  ws.foldl (fun s kv => storeSet s kv.1 kv.2) store

/-- Every store state reached during a write sequence, initial state
included. -/
def writeStates (store : Store) (ws : List (String × StoredVal)) :
    List Store :=
  ws.scanl (fun s kv => storeSet s kv.1 kv.2) store

/-- The `onSuccess` handler of `requestConnection` (src/index.ts 773-806):
validate the account list, take its first account, resolve the wallet
endpoint (the native marker verbatim when requested, otherwise the
wallet-reported `walletUrl`), persist the four keys in order, then — when a
message was to be signed — require and re-encode the wallet's signed
message (base58 wire signature to base64 output). -/
def connectOnSuccess (requestedWalletUrl logoutBridgeUrl : String)
    (keyId : Nat) (mts : Option Nep413Payload) (store : Store)
    (data : ConnectedResponse) :
    Except String (ConnectorState × Store × ConnectionResultModel) :=
  match data.accounts with
  | none =>
    .error "No accounts returned from wallet, this should never happen, a bug on wallet side"
  | some [] =>
    .error "No accounts returned from wallet, this should never happen, a bug on wallet side"
  | some (a0 :: _) =>
    let accountId := a0.accountId
    let acct : ConnectedAccount :=
      { accountId := accountId, disconnected := false }
    let responseWalletUrl :=
      if requestedWalletUrl = INTEAR_NATIVE_WALLET_URL then requestedWalletUrl
      else data.walletUrl
    let store' := applyWrites store
      (establishWrites (.jwk keyId) responseWalletUrl logoutBridgeUrl
        accountId)
    let conn' : ConnectorState :=
      { connectedAccount := some acct
        walletUrl := some responseWalletUrl
        logoutBridgeUrl := some logoutBridgeUrl }
    match mts with
    | none => .ok (conn', store', { account := acct, signedMessage := none })
    | some _ =>
      match data.signedMessage with
      | none =>
        .error "No signed message returned from wallet, this should never happen, a bug on wallet side"
      | some sm =>
        match (sm.signature.splitOn ":").get? 1 with
        | none => .error "Malformed wallet signature"
        | some b58part =>
          match base58Decode b58part with
          | none => .error "Invalid base58 character"
          | some sigBytes =>
            .ok (conn', store',
              { account := acct
                signedMessage := some
                  { accountId := sm.accountId
                    publicKey := sm.publicKey
                    signature := base64Encode sigBytes
                    state := sm.state } })

/-- The rejection predicates of the three operations (src/index.ts 807,
557, 636). -/
def isUserRejectionConnection (msg : String) : Bool :=
  msg = "User rejected the connection"

def isUserRejectionSignature (msg : String) : Bool :=
  msg = "User rejected the signature"

def isUserRejectionTransactions (msg : String) : Bool :=
  msg = "User rejected the transactions"

/-- The settlement-discipline invariant of the popup flow: either no
settlement has happened and the machinery is fully live, or exactly one
settlement has happened and both the listener and the interval are gone. -/
def PopupInv {β : Type} (st : PopupState β) : Prop :=
  (st.settlements = [] ∧ st.listenerOn = true ∧ st.intervalOn = true
    ∧ st.resultReceived = false)
  ∨ (st.settlements.length = 1 ∧ st.listenerOn = false
    ∧ st.intervalOn = false)

/-- The native-flow invariant: a set `resultReceived` flag and a closed
socket each imply that some settlement has already been recorded. -/
def NativeInv {β : Type} (st : NativeState β) : Prop :=
  (st.resultReceived = true → st.settlements ≠ [])
  ∧ (st.wsOpen = false → st.settlements ≠ [])

/-- Concrete popup configuration used to witness the flow theorems. -/
def popupCfgW : PopupConfig Unit Unit :=
  { walletUrl := "https://wallet.intear.tech"
    sendMessageType := "signIn"
    successMessageType := "connected"
    onSuccess := fun _ => Except.ok ()
    isUserRejection := some isUserRejectionConnection }

/-- Concrete native configuration used to witness the flow theorems. -/
def nativeCfgW : NativeConfig Unit Unit :=
  { sendMessageType := "signIn"
    successMessageType := "connected"
    onSuccess := fun _ => Except.ok ()
    isUserRejection := some isUserRejectionConnection }

def msgW : MsgData Unit := { type_ := "connected", message := "", payload := () }

def frameW : NativeFrame Unit :=
  { sessionId := none, type_ := "connected", message := "", payload := () }

def popupCfgSignW : PopupConfig Unit Unit :=
  { walletUrl := "https://wallet.intear.tech"
    sendMessageType := "signMessage"
    successMessageType := "signed"
    onSuccess := fun _ => Except.ok ()
    isUserRejection := some isUserRejectionSignature }

def popupCfgTxW : PopupConfig Unit Unit :=
  { walletUrl := "https://wallet.intear.tech"
    sendMessageType := "signAndSendTransactions"
    successMessageType := "sent"
    onSuccess := fun _ => Except.ok ()
    isUserRejection := some isUserRejectionTransactions }

def connW : ConnectorState :=
  { connectedAccount := some { accountId := "alice.near", disconnected := false }
    walletUrl := none
    logoutBridgeUrl := none }

def connEndpointsW : ConnectorState :=
  { connectedAccount := none
    walletUrl := some "https://w"
    logoutBridgeUrl := some "wss://b" }

def connEmptyW : ConnectorState :=
  { connectedAccount := none
    walletUrl := none
    logoutBridgeUrl := none }

def optsEmptyW : ConnectionOptions :=
  { networkId := none
    walletUrl := none
    logoutBridgeUrl := none
    messageToSign := none }

def nep1W : Nep413Payload :=
  { message := "hi"
    nonce := [0]
    recipient := "r.test"
    callbackUrl := none
    state := none }

def nep32W : Nep413Payload :=
  { message := "hi"
    nonce := List.replicate 32 0
    recipient := "r.test"
    callbackUrl := none
    state := none }

def optsBadNonceW : ConnectionOptions :=
  { networkId := none
    walletUrl := none
    logoutBridgeUrl := none
    messageToSign := some nep1W }

def acctDiscW : ConnectedAccount :=
  { accountId := "alice.near", disconnected := true }

def acctLiveW : ConnectedAccount :=
  { accountId := "alice.near", disconnected := false }

def connectedDataW : ConnectedResponse :=
  { accounts := some [{ accountId := "alice.near" }]
    walletUrl := "https://canonical.wallet.intear.tech"
    signedMessage := none }

def connAfterW : ConnectorState :=
  { connectedAccount := some acctLiveW
    walletUrl := some "https://canonical.wallet.intear.tech"
    logoutBridgeUrl := some "wss://logout-bridge-service.intear.tech" }

def storeAfterW : Store :=
  applyWrites emptyStore (establishWrites (.jwk 5)
    "https://canonical.wallet.intear.tech"
    "wss://logout-bridge-service.intear.tech" "alice.near")

def resAfterW : ConnectionResultModel :=
  { account := acctLiveW, signedMessage := none }

def dataNoAccountsW : ConnectedResponse :=
  { accounts := none, walletUrl := "https://w", signedMessage := none }

def dataEmptyAccountsW : ConnectedResponse :=
  { accounts := some [], walletUrl := "https://w", signedMessage := none }

def storeRehydratedW : Store :=
  fun k => if k = STORAGE_KEY_ACCOUNT_ID then some (.str "alice.near")
    else none

theorem carryDigitsGo_congr (B : Nat) :
    ∀ f1 f2 c, c ≤ f1 → c ≤ f2 →
      carryDigitsGo B f1 c = carryDigitsGo B f2 c := by
  intro f1
  induction f1 with
  | zero =>
    intro f2 c hc1 _
    interval_cases c
    cases f2 with
    | zero => rfl
    | succ f2 => simp [carryDigitsGo]
  | succ f1 ih =>
    intro f2 c hc1 hc2
    cases f2 with
    | zero =>
      interval_cases c
      simp [carryDigitsGo]
    | succ f2 =>
      simp only [carryDigitsGo]
      by_cases h : c = 0 ∨ B < 2
      · rw [if_pos h, if_pos h]
      · rw [if_neg h, if_neg h]
        have hB : 2 ≤ B := by omega
        have hc0 : c ≠ 0 := by omega
        have hlt : c / B < c := Nat.div_lt_self (by omega) (by omega)
        rw [ih f2 (c / B) (by omega) (by omega)]

theorem carryDigits_unfold (B c : Nat) :
    carryDigits B c
      = if c = 0 ∨ B < 2 then [] else c % B :: carryDigits B (c / B) := by
  unfold carryDigits
  by_cases h : c = 0 ∨ B < 2
  · rw [if_pos h]
    cases c with
    | zero => rfl
    | succ c => simp only [carryDigitsGo]; rw [if_pos h]
  · rw [if_neg h]
    have hB : 2 ≤ B := by omega
    have hc0 : c ≠ 0 := by omega
    obtain ⟨c', rfl⟩ : ∃ c', c = c' + 1 := ⟨c - 1, by omega⟩
    simp only [carryDigitsGo]
    rw [if_neg h]
    have hlt : (c' + 1) / B ≤ c' := by
      have := Nat.div_lt_self (show 0 < c' + 1 by omega) (show 1 < B by omega)
      omega
    rw [carryDigitsGo_congr B c' ((c' + 1) / B) ((c' + 1) / B) hlt (le_refl _)]

theorem carryDigits_eq_digits (B : Nat) (hB : 2 ≤ B) (c : Nat) :
    carryDigits B c = Nat.digits B c := by
  induction c using Nat.strong_induction_on with
  | _ c ih =>
    rw [carryDigits_unfold]
    by_cases hc : c = 0
    · simp [hc]
    · have hcond : ¬ (c = 0 ∨ B < 2) := by omega
      rw [if_neg hcond]
      rw [ih (c / B) (Nat.div_lt_self (Nat.pos_of_ne_zero hc) (by omega))]
      rw [Nat.digits_def' (by omega : 1 < B) (Nat.pos_of_ne_zero hc)]

theorem ofDigits_carryDigits (B : Nat) (hB : 2 ≤ B) (c : Nat) :
    Nat.ofDigits B (carryDigits B c) = c := by
  rw [carryDigits_eq_digits B hB, Nat.ofDigits_digits]

theorem ofDigits_addScaled (B M : Nat) (hB : 2 ≤ B) (ds : List Nat) :
    ∀ c, Nat.ofDigits B (addScaled B M ds c) = c + M * Nat.ofDigits B ds := by
  induction ds with
  | nil => intro c; simp [addScaled, ofDigits_carryDigits B hB]
  | cons d ds ih =>
    intro c
    simp only [addScaled, Nat.ofDigits_cons, ih]
    have hmd : (c + d * M) % B + B * ((c + d * M) / B) = c + d * M :=
      Nat.mod_add_div _ _
    ring_nf
    ring_nf at hmd
    nlinarith [hmd]

theorem mem_carryDigits_lt (B : Nat) (hB : 2 ≤ B) (c : Nat) :
    ∀ x ∈ carryDigits B c, x < B := by
  rw [carryDigits_eq_digits B hB]
  intro x hx
  exact Nat.digits_lt_base (by omega) hx

theorem mem_addScaled_lt (B M : Nat) (hB : 2 ≤ B) (ds : List Nat) :
    ∀ c, ∀ x ∈ addScaled B M ds c, x < B := by
  induction ds with
  | nil => intro c x hx; exact mem_carryDigits_lt B hB c x hx
  | cons d ds ih =>
    intro c x hx
    simp only [addScaled, List.mem_cons] at hx
    rcases hx with h | h
    · subst h; exact Nat.mod_lt _ (by omega)
    · exact ih _ x h

theorem canon_nil : Canon ([] : List Nat) := by simp [Canon]

theorem canon_iff_getLast (L : List Nat) :
    Canon L ↔ ∀ h : L ≠ [], L.getLast h ≠ 0 := by
  constructor
  · intro hc h h0
    exact hc (by rw [List.getLast?_eq_getLast L h, h0])
  · intro hL
    cases hLnil : L with
    | nil => simp [Canon]
    | cons a l =>
      rw [← hLnil]
      have hne : L ≠ [] := by rw [hLnil]; simp
      intro hbad
      rw [List.getLast?_eq_getLast L hne] at hbad
      exact hL hne (by injection hbad)

theorem canon_digits (B n : Nat) : Canon (Nat.digits B n) := by
  rw [canon_iff_getLast]
  intro h
  have hn : n ≠ 0 := by
    intro h0; subst h0; simp at h
  exact Nat.getLast_digit_ne_zero B hn

theorem canon_carryDigits (B : Nat) (hB : 2 ≤ B) (c : Nat) :
    Canon (carryDigits B c) := by
  rw [carryDigits_eq_digits B hB]; exact canon_digits B c

theorem addScaled_cons (B M : Nat) (d : Nat) (ds : List Nat) (c : Nat) :
    addScaled B M (d :: ds) c
      = ((c + d * M) % B) :: addScaled B M ds ((c + d * M) / B) := rfl

theorem getLast?_cons_of_ne_nil {α : Type} (a : α) {l : List α}
    (h : l ≠ []) : (a :: l).getLast? = l.getLast? := by
  cases l with
  | nil => exact absurd rfl h
  | cons b t => exact List.getLast?_cons_cons

theorem canon_addScaled (B M : Nat) (hB : 2 ≤ B) (hM : 1 ≤ M)
    (ds : List Nat) : ∀ c, Canon ds → Canon (addScaled B M ds c) := by
  induction ds with
  | nil => intro c _; exact canon_carryDigits B hB c
  | cons d ds ih =>
    intro c hcanon
    cases ds with
    | nil =>
      -- `d` is the last (most significant) digit, so `d ≠ 0`.
      have hd : d ≠ 0 := by
        simp [Canon] at hcanon
        exact hcanon
      rw [addScaled_cons]
      set t := c + d * M with ht
      have htpos : 1 ≤ t := by
        have : M ≤ d * M := Nat.le_mul_of_pos_left M (Nat.pos_of_ne_zero hd)
        omega
      by_cases hq : t / B = 0
      · -- no carry left: the single produced digit is `t % B = t ≠ 0`
        have htlt : t < B := by
          rcases Nat.lt_or_ge t B with h | h
          · exact h
          · exact absurd hq (by
              have : 1 ≤ t / B := Nat.one_le_div_iff (by omega) |>.mpr h
              omega)
        have htail : addScaled B M [] (t / B) = [] := by
          simp only [addScaled, hq]
          rw [carryDigits_eq_digits B hB]
          simp
        rw [htail]
        simp [Canon, Nat.mod_eq_of_lt htlt]
        omega
      · -- carry remains: the tail is a nonempty canonical carry list
        have htail : addScaled B M [] (t / B) ≠ [] := by
          simp only [addScaled]
          rw [carryDigits_eq_digits B hB]
          exact Nat.digits_ne_nil_iff_ne_zero.mpr hq
        unfold Canon
        rw [getLast?_cons_of_ne_nil _ htail]
        exact canon_carryDigits B hB (t / B)
    | cons e ds' =>
      have hcanon' : Canon (e :: ds') := by
        unfold Canon at hcanon ⊢
        rwa [getLast?_cons_of_ne_nil _ (by simp)] at hcanon
      rw [addScaled_cons]
      have htail : addScaled B M (e :: ds') ((c + d * M) / B) ≠ [] := by
        rw [addScaled_cons]; simp
      unfold Canon
      rw [getLast?_cons_of_ne_nil _ htail]
      exact ih _ hcanon'

/-- Uniqueness: a canonical digit list with digits below the base is
determined by its value. -/
theorem canon_ofDigits_inj (B : Nat) (hB : 2 ≤ B) (L1 L2 : List Nat)
    (h1 : ∀ x ∈ L1, x < B) (h2 : ∀ x ∈ L2, x < B)
    (c1 : Canon L1) (c2 : Canon L2)
    (hval : Nat.ofDigits B L1 = Nat.ofDigits B L2) : L1 = L2 := by
  have e1 : Nat.digits B (Nat.ofDigits B L1) = L1 :=
    Nat.digits_ofDigits B (by omega) L1 h1 ((canon_iff_getLast L1).mp c1)
  have e2 : Nat.digits B (Nat.ofDigits B L2) = L2 :=
    Nat.digits_ofDigits B (by omega) L2 h2 ((canon_iff_getLast L2).mp c2)
  rw [← e1, ← e2, hval]

/-! Folding a whole byte/digit sequence through `addScaled`, as the outer
`for` loop of the source does. -/

theorem ofDigits_foldl_addScaled (B M : Nat) (hB : 2 ≤ B) (bs : List Nat) :
    ∀ ds : List Nat,
      Nat.ofDigits B (bs.foldl (addScaled B M) ds)
        = bs.foldl (fun v b => v * M + b) (Nat.ofDigits B ds) := by
  induction bs with
  | nil => intro ds; rfl
  | cons b bs ih =>
    intro ds
    simp only [List.foldl_cons]
    rw [ih (addScaled B M ds b), ofDigits_addScaled B M hB ds b]
    have hcomm : b + M * Nat.ofDigits B ds = Nat.ofDigits B ds * M + b := by
      ring
    rw [hcomm]

theorem mem_foldl_addScaled_lt (B M : Nat) (hB : 2 ≤ B) (bs : List Nat) :
    ∀ ds : List Nat, (∀ x ∈ ds, x < B) →
      ∀ x ∈ bs.foldl (addScaled B M) ds, x < B := by
  induction bs with
  | nil => intro ds hds; exact hds
  | cons b bs ih =>
    intro ds _ x hx
    exact ih (addScaled B M ds b) (mem_addScaled_lt B M hB ds b) x hx

theorem canon_foldl_addScaled (B M : Nat) (hB : 2 ≤ B) (hM : 1 ≤ M)
    (bs : List Nat) : ∀ ds : List Nat, Canon ds →
      Canon (bs.foldl (addScaled B M) ds) := by
  induction bs with
  | nil => intro ds hds; exact hds
  | cons b bs ih =>
    intro ds hds
    exact ih (addScaled B M ds b) (canon_addScaled B M hB hM ds b hds)

/-- The numeric value accumulated most-significant-first equals `ofDigits`
of the reversed sequence. -/
theorem foldl_scale_eq_ofDigits_reverse (M : Nat) (bs : List Nat) :
    ∀ v : Nat, bs.foldl (fun a b => a * M + b) v
      = Nat.ofDigits M bs.reverse + v * M ^ bs.length := by
  induction bs with
  | nil => intro v; simp
  | cons b bs ih =>
    intro v
    simp only [List.foldl_cons, List.reverse_cons, List.length_cons]
    rw [ih (v * M + b), Nat.ofDigits_append]
    simp only [List.length_reverse, Nat.ofDigits_cons, Nat.ofDigits_nil]
    push_cast
    ring

/-! Finite alphabet facts, checked by evaluation. -/

theorem b58Idx_b58Char : ∀ d < 58, b58Idx (b58Char d) = some d := by decide

theorem b58Char_ne_one {d : Nat} (hd : d < 58) (hd0 : d ≠ 0) :
    b58Char d ≠ '1' := by
  intro h
  have h1 : b58Idx '1' = some 0 := by decide
  have h2 := b58Idx_b58Char d hd
  rw [h] at h2
  rw [h1] at h2
  injection h2 with h3
  exact hd0 h3.symm

/-! List facts used to split off the leading zeros. -/

theorem takeWhile_beq_eq_replicate {α : Type} [DecidableEq α] (x : α) :
    ∀ l : List α, l.takeWhile (· == x)
      = List.replicate (l.takeWhile (· == x)).length x := by
  intro l
  induction l with
  | nil => rfl
  | cons a t ih =>
    by_cases h : a = x
    · subst h
      simp only [List.takeWhile_cons, beq_self_eq_true, if_true]
      rw [List.length_cons, List.replicate_succ]
      exact congrArg (List.cons a) ih
    · have : (a == x) = false := beq_false_of_ne h
      simp [List.takeWhile_cons, this]

theorem drop_length_takeWhile {α : Type} (p : α → Bool) :
    ∀ l : List α, l.drop (l.takeWhile p).length = l.dropWhile p := by
  intro l
  induction l with
  | nil => rfl
  | cons a t ih =>
    by_cases h : p a
    · simp [List.takeWhile_cons, List.dropWhile_cons, h, ih]
    · simp [List.takeWhile_cons, List.dropWhile_cons, h]

theorem dropWhile_head_not {α : Type} (p : α → Bool) :
    ∀ l : List α, l.dropWhile p = [] ∨
      ∃ a t, l.dropWhile p = a :: t ∧ p a = false := by
  intro l
  induction l with
  | nil => exact Or.inl rfl
  | cons a t ih =>
    by_cases h : p a
    · simpa [List.dropWhile_cons, h] using ih
    · exact Or.inr ⟨a, t, by simp [List.dropWhile_cons, h],
        Bool.of_not_eq_true h⟩

theorem takeWhile_replicate_append {α : Type} (p : α → Bool) (x : α)
    (hx : p x = true) (n : Nat) (l : List α) :
    (List.replicate n x ++ l).takeWhile p
      = List.replicate n x ++ l.takeWhile p := by
  induction n with
  | zero => simp
  | succ n ih => simp [List.replicate_succ, List.takeWhile_cons, hx, ih]

theorem foldlM_map_some {α β : Type} (f : α → Option Nat) (g : Nat → α)
    (step : β → Nat → β) (ds : List Nat) (hfg : ∀ d ∈ ds, f (g d) = some d) :
    ∀ acc : β, List.foldlM (fun b c => (f c).map (step b)) acc (ds.map g)
      = some (ds.foldl step acc) := by
  induction ds with
  | nil => intro acc; rfl
  | cons d ds ih =>
    intro acc
    simp only [List.map_cons, List.foldlM_cons,
      hfg d (by simp), Option.map_some]
    exact ih (fun d hd => hfg d (by simp [hd])) (step acc d)

/-- Round trip of the hand-rolled base58 codec, for arbitrary byte
sequences (including empty and zero-led ones). -/
theorem base58_roundtrip (bs : List Nat) (hbs : ∀ b ∈ bs, b < 256) :
    base58Decode (base58Encode bs) = some bs := by
  classical
  unfold base58Decode base58Encode base58DecodeCore
  simp only [String.data]
  set z := (bs.takeWhile (· == 0)).length with hz
  set rest := bs.drop z with hrest
  -- decomposition of the input
  have hbs_split : List.replicate z 0 ++ rest = bs := by
    rw [hrest, hz]
    conv_rhs => rw [← List.takeWhile_append_dropWhile (p := (· == 0)) (l := bs)]
    rw [← takeWhile_beq_eq_replicate 0 bs, drop_length_takeWhile]
  have hrest_eq : rest = bs.dropWhile (· == 0) := by
    rw [hrest, hz, drop_length_takeWhile]
  set D := rest.foldl (addScaled 58 256) [] with hD
  have hD_lt : ∀ x ∈ D, x < 58 :=
    mem_foldl_addScaled_lt 58 256 (by omega) rest [] (by simp)
  have hD_canon : Canon D :=
    canon_foldl_addScaled 58 256 (by omega) (by omega) rest [] canon_nil
  have hD_val : Nat.ofDigits 58 D = Nat.ofDigits 256 rest.reverse := by
    rw [hD, ofDigits_foldl_addScaled 58 256 (by omega) rest []]
    simp only [Nat.ofDigits_nil]
    rw [foldl_scale_eq_ofDigits_reverse 256 rest 0]
    simp
  -- the leading `'1'` count of the encoded string is exactly `z`
  have hchars_take :
      ((List.replicate z '1' ++ D.reverse.map b58Char).takeWhile (· == '1'))
        = List.replicate z '1' := by
    rw [takeWhile_replicate_append (· == '1') '1' (by simp) z]
    rcases hDrev : D.reverse.map b58Char with _ | ⟨c, cs⟩
    · simp
    · have hc : ∃ d, d ∈ D ∧ c = b58Char d ∧ D.getLast? = some d := by
        rcases hDr : D.reverse with _ | ⟨d0, ds0⟩
        · rw [hDr] at hDrev; simp at hDrev
        · rw [hDr] at hDrev
          simp only [List.map_cons, List.cons.injEq] at hDrev
          refine ⟨d0, ?_, hDrev.1.symm, ?_⟩
          · have : d0 ∈ D.reverse := by rw [hDr]; simp
            exact List.mem_reverse.mp this
          · rw [← List.head?_reverse, hDr]; rfl
      obtain ⟨d, hdmem, hcd, hdlast⟩ := hc
      have hd0 : d ≠ 0 := by
        intro h0
        exact hD_canon (by rw [hdlast, h0])
      have : (c == '1') = false := by
        have := b58Char_ne_one (hD_lt d hdmem) hd0
        rw [hcd]
        exact beq_false_of_ne this
      simp [List.takeWhile_cons, this]
  rw [hchars_take]
  simp only [List.length_replicate]
  have hdrop :
      (List.replicate z '1' ++ D.reverse.map b58Char).drop z
        = D.reverse.map b58Char := by
    have hzlen : (List.replicate z '1').length = z := by simp
    calc (List.replicate z '1' ++ D.reverse.map b58Char).drop z
        = (List.replicate z '1' ++ D.reverse.map b58Char).drop
            (List.replicate z '1').length := by rw [hzlen]
      _ = D.reverse.map b58Char := List.drop_left _ _
  rw [hdrop]
  -- decoding the digit characters reads back `D.reverse` digit values
  rw [foldlM_map_some b58Idx b58Char (addScaled 256 58) D.reverse
    (fun d hd => b58Idx_b58Char d (hD_lt d (List.mem_reverse.mp hd))) []]
  set bytes := D.reverse.foldl (addScaled 256 58) [] with hbytes
  have hbytes_lt : ∀ x ∈ bytes, x < 256 :=
    mem_foldl_addScaled_lt 256 58 (by omega) D.reverse [] (by simp)
  have hbytes_canon : Canon bytes :=
    canon_foldl_addScaled 256 58 (by omega) (by omega) D.reverse [] canon_nil
  have hbytes_val : Nat.ofDigits 256 bytes = Nat.ofDigits 256 rest.reverse := by
    rw [hbytes, ofDigits_foldl_addScaled 256 58 (by omega) D.reverse []]
    simp only [Nat.ofDigits_nil]
    rw [foldl_scale_eq_ofDigits_reverse 58 D.reverse 0]
    simp [List.reverse_reverse, hD_val]
  -- `rest.reverse` is itself canonical with bytes below 256
  have hrest_lt : ∀ x ∈ rest.reverse, x < 256 := by
    intro x hx
    exact hbs x (List.drop_subset z bs (List.mem_reverse.mp hx))
  have hrest_canon : Canon rest.reverse := by
    unfold Canon
    rw [List.getLast?_reverse]
    rcases dropWhile_head_not (· == 0) bs with h | ⟨a, t, hat, ha⟩
    · rw [hrest_eq, h]; simp
    · rw [hrest_eq, hat]
      simp only [List.head?_cons, ne_eq, Option.some.injEq]
      intro h0
      rw [h0] at ha
      simp at ha
  have hfinal : bytes = rest.reverse :=
    canon_ofDigits_inj 256 (by omega) bytes rest.reverse hbytes_lt hrest_lt
      hbytes_canon hrest_canon (by rw [hbytes_val])
  rw [hfinal]
  show some (List.replicate z 0 ++ rest.reverse.reverse) = some bs
  rw [List.reverse_reverse, hbs_split]

theorem b64Idx_b64Char : ∀ s < 64, b64Idx (b64Char s) = some s := by decide

theorem urlSafeNorm_b64Char : ∀ s < 64, urlSafeNorm (b64Char s) = b64Char s := by
  decide

theorem b64Char_ne_eq {s : Nat} (hs : s < 64) : b64Char s ≠ '=' := by
  intro h
  have h2 := b64Idx_b64Char s hs
  rw [h] at h2
  have : b64Idx '=' = none := by decide
  rw [this] at h2
  exact Option.noConfusion h2

/-- Round trip of the base64 codec on byte sequences. -/
theorem base64_roundtrip (bs : List Nat) (hbs : ∀ b ∈ bs, b < 256) :
    base64Decode (base64Encode bs) = some bs := by
  unfold base64Decode base64Encode
  simp only [String.data]
  revert hbs
  induction bs using btoaModel.induct with
  | case1 => intro _; rfl
  | case2 b1 =>
    intro hbs
    have h1 : b1 < 256 := hbs b1 (by simp)
    have hs1 : b1 / 4 < 64 := by omega
    have hs2 : b1 % 4 * 16 < 64 := by omega
    simp only [btoaModel, List.map_cons, List.map_nil,
      urlSafeNorm_b64Char _ hs1, urlSafeNorm_b64Char _ hs2]
    have hnorm_eq : urlSafeNorm '=' = '=' := by decide
    rw [hnorm_eq]
    simp only [atobModel, b64Idx_b64Char _ hs1, b64Idx_b64Char _ hs2]
    simp only [if_true, and_self]
    have : b1 / 4 * 4 + b1 % 4 * 16 / 16 = b1 := by omega
    rw [this]
  | case3 b1 b2 =>
    intro hbs
    have h1 : b1 < 256 := hbs b1 (by simp)
    have h2 : b2 < 256 := hbs b2 (by simp)
    have hs1 : b1 / 4 < 64 := by omega
    have hs2 : b1 % 4 * 16 + b2 / 16 < 64 := by omega
    have hs3 : b2 % 16 * 4 < 64 := by omega
    simp only [btoaModel, List.map_cons, List.map_nil,
      urlSafeNorm_b64Char _ hs1, urlSafeNorm_b64Char _ hs2,
      urlSafeNorm_b64Char _ hs3]
    have hnorm_eq : urlSafeNorm '=' = '=' := by decide
    rw [hnorm_eq]
    simp only [atobModel, b64Idx_b64Char _ hs1, b64Idx_b64Char _ hs2,
      b64Idx_b64Char _ hs3]
    rw [if_neg (b64Char_ne_eq hs3)]
    simp only [if_true]
    have e1 : b1 / 4 * 4 + (b1 % 4 * 16 + b2 / 16) / 16 = b1 := by omega
    have e2 : (b1 % 4 * 16 + b2 / 16) % 16 * 16 + b2 % 16 * 4 / 4 = b2 := by
      omega
    rw [e1, e2]
  | case4 b1 b2 b3 rest ih =>
    intro hbs
    have h1 : b1 < 256 := hbs b1 (by simp)
    have h2 : b2 < 256 := hbs b2 (by simp)
    have h3 : b3 < 256 := hbs b3 (by simp)
    have hrest : ∀ b ∈ rest, b < 256 := fun b hb => hbs b (by simp [hb])
    have hs1 : b1 / 4 < 64 := by omega
    have hs2 : b1 % 4 * 16 + b2 / 16 < 64 := by omega
    have hs3 : b2 % 16 * 4 + b3 / 64 < 64 := by omega
    have hs4 : b3 % 64 < 64 := by omega
    simp only [btoaModel, List.map_cons,
      urlSafeNorm_b64Char _ hs1, urlSafeNorm_b64Char _ hs2,
      urlSafeNorm_b64Char _ hs3, urlSafeNorm_b64Char _ hs4]
    simp only [atobModel, b64Idx_b64Char _ hs1, b64Idx_b64Char _ hs2,
      b64Idx_b64Char _ hs3, b64Idx_b64Char _ hs4]
    rw [if_neg (b64Char_ne_eq hs3), if_neg (b64Char_ne_eq hs4)]
    rw [ih hrest]
    have e1 : b1 / 4 * 4 + (b1 % 4 * 16 + b2 / 16) / 16 = b1 := by omega
    have e2 : (b1 % 4 * 16 + b2 / 16) % 16 * 16 + (b2 % 16 * 4 + b3 / 64) / 4
        = b2 := by omega
    have e3 : (b2 % 16 * 4 + b3 / 64) % 4 * 64 + b3 % 64 = b3 := by omega
    rw [Option.map_some']
    rw [e1, e2, e3]

theorem pubKeyBytes_lt (k : Nat) : ∀ b ∈ pubKeyBytes k, b < 256 := by
  intro b hb
  simp only [pubKeyBytes, List.mem_map] at hb
  obtain ⟨i, _, rfl⟩ := hb
  exact Nat.mod_lt _ (by omega)

theorem ed25519SignBytes_lt (k : Nat) (data : List Nat) :
    ∀ b ∈ ed25519SignBytes k data, b < 256 := by
  intro b hb
  simp only [ed25519SignBytes, List.mem_append, List.mem_map] at hb
  rcases hb with h | ⟨a, _, rfl⟩
  · exact pubKeyBytes_lt k b h
  · exact Nat.mod_lt _ (by omega)

theorem stripEd25519Tag_append (s : String) :
    stripEd25519Tag ("ed25519:" ++ s) = some s.data := by
  cases s with
  | mk l => rfl

/-! ## Flow machine lemmas -/

theorem stepPopup_frozen {α β : Type} (cfg : PopupConfig α β)
    (st : PopupState β) (hL : st.listenerOn = false)
    (hI : st.intervalOn = false) (ev : PopupEvent α) :
    stepPopup cfg st ev = st := by
  cases ev with
  | message o d => simp [stepPopup, hL]
  | closePoll => simp [stepPopup, hI]

theorem foldlPopup_frozen {α β : Type} (cfg : PopupConfig α β)
    (es : List (PopupEvent α)) : ∀ st : PopupState β,
      st.listenerOn = false → st.intervalOn = false →
      es.foldl (stepPopup cfg) st = st := by
  induction es with
  | nil => intro st _ _; rfl
  | cons e es ih =>
    intro st hL hI
    simp only [List.foldl_cons, stepPopup_frozen cfg st hL hI e]
    exact ih st hL hI

theorem stepPopup_settlements_extend {α β : Type} (cfg : PopupConfig α β)
    (st : PopupState β) (ev : PopupEvent α) :
    ∃ t, (stepPopup cfg st ev).settlements = st.settlements ++ t := by
  cases ev with
  | message o d =>
    simp only [stepPopup]
    split_ifs <;>
      first
      | exact ⟨[], (List.append_nil _).symm⟩
      | exact ⟨_, rfl⟩
  | closePoll =>
    simp only [stepPopup]
    split_ifs <;>
      first
      | exact ⟨[], (List.append_nil _).symm⟩
      | exact ⟨_, rfl⟩

theorem foldlPopup_settlements_extend {α β : Type} (cfg : PopupConfig α β)
    (es : List (PopupEvent α)) : ∀ st : PopupState β,
      ∃ t, (es.foldl (stepPopup cfg) st).settlements
        = st.settlements ++ t := by
  induction es with
  | nil => intro st; exact ⟨[], by simp⟩
  | cons e es ih =>
    intro st
    obtain ⟨t1, h1⟩ := stepPopup_settlements_extend cfg st e
    obtain ⟨t2, h2⟩ := ih (stepPopup cfg st e)
    exact ⟨t1 ++ t2, by
      simp only [List.foldl_cons, h2, h1, List.append_assoc]⟩

theorem stepPopup_inv {α β : Type} (cfg : PopupConfig α β)
    (st : PopupState β) (ev : PopupEvent α) :
    PopupInv st → PopupInv (stepPopup cfg st ev) := by
  intro h
  rcases h with ⟨hs, hL, hI, hR⟩ | ⟨hs, hL, hI⟩
  · cases ev with
    | message o d =>
      simp only [stepPopup]
      rw [if_neg (show ¬ ¬ st.listenerOn = true by simp [hL])]
      by_cases h2 : o ≠ cfg.walletUrl
      · rw [if_pos h2]
        exact Or.inl ⟨hs, hL, hI, hR⟩
      · rw [if_neg h2]
        by_cases h3 : d.type_ = "ready"
        · rw [if_pos h3]
          exact Or.inl ⟨hs, hL, hI, hR⟩
        · rw [if_neg h3]
          by_cases h4 : d.type_ = cfg.successMessageType
          · rw [if_pos (And.intro h4 (by simp [hR]))]
            refine Or.inr ⟨?_, rfl, rfl⟩
            simp [hs]
          · rw [if_neg (fun hc => h4 hc.1)]
            by_cases h5 : d.type_ = "error"
            · rw [if_pos (And.intro h5 (by simp [hR]))]
              refine Or.inr ⟨?_, rfl, rfl⟩
              simp [hs]
            · rw [if_neg (fun hc => h5 hc.1)]
              exact Or.inl ⟨hs, hL, hI, hR⟩
    | closePoll =>
      simp only [stepPopup]
      rw [if_pos (And.intro hI (by simp [hR]))]
      refine Or.inr ⟨?_, rfl, rfl⟩
      simp [hs]
  · rw [stepPopup_frozen cfg st hL hI ev]
    exact Or.inr ⟨hs, hL, hI⟩

theorem foldlPopup_inv {α β : Type} (cfg : PopupConfig α β)
    (es : List (PopupEvent α)) : ∀ st : PopupState β,
      PopupInv st → PopupInv (es.foldl (stepPopup cfg) st) := by
  induction es with
  | nil => intro st h; exact h
  | cons e es ih =>
    intro st h
    exact ih _ (stepPopup_inv cfg st e h)

theorem popupInit_inv {β : Type} : PopupInv (popupInit (β := β)) :=
  Or.inl ⟨rfl, rfl, rfl, rfl⟩

theorem runPopup_inv {α β : Type} (cfg : PopupConfig α β)
    (es : List (PopupEvent α)) : PopupInv (runPopup cfg es) :=
  foldlPopup_inv cfg es popupInit popupInit_inv

/-- A live popup state settles on any terminal event. -/
theorem stepPopup_settles {α β : Type} (cfg : PopupConfig α β)
    (st : PopupState β) (ev : PopupEvent α)
    (hL : st.listenerOn = true) (hI : st.intervalOn = true)
    (hR : st.resultReceived = false) (hterm : popupTerminal cfg ev) :
    (stepPopup cfg st ev).settlements ≠ [] := by
  cases ev with
  | message o d =>
    obtain ⟨horigin, hready, htype⟩ := hterm
    simp only [stepPopup]
    rw [if_neg (show ¬ ¬ st.listenerOn = true by simp [hL])]
    rw [if_neg (show ¬ o ≠ cfg.walletUrl by simp [horigin])]
    rw [if_neg hready]
    by_cases hsucc : d.type_ = cfg.successMessageType
    · rw [if_pos (And.intro hsucc (by simp [hR]))]
      simp
    · rcases htype with h | h
      · exact absurd h hsucc
      · rw [if_neg (fun hc => hsucc hc.1)]
        rw [if_pos (And.intro h (by simp [hR]))]
        simp
  | closePoll =>
    simp only [stepPopup]
    rw [if_pos (And.intro hI (by simp [hR]))]
    simp

/-- A live popup state stays live on any non-terminal event. -/
theorem stepPopup_live {α β : Type} (cfg : PopupConfig α β)
    (st : PopupState β) (ev : PopupEvent α)
    (hs : st.settlements = []) (hL : st.listenerOn = true)
    (hI : st.intervalOn = true) (hR : st.resultReceived = false)
    (hterm : ¬ popupTerminal cfg ev) :
    (stepPopup cfg st ev).settlements = []
      ∧ (stepPopup cfg st ev).listenerOn = true
      ∧ (stepPopup cfg st ev).intervalOn = true
      ∧ (stepPopup cfg st ev).resultReceived = false := by
  cases ev with
  | message o d =>
    simp only [stepPopup]
    rw [if_neg (show ¬ ¬ st.listenerOn = true by simp [hL])]
    by_cases horigin : o = cfg.walletUrl
    · rw [if_neg (show ¬ o ≠ cfg.walletUrl by simp [horigin])]
      by_cases hready : d.type_ = "ready"
      · rw [if_pos hready]
        exact ⟨hs, hL, hI, hR⟩
      · by_cases hsucc : d.type_ = cfg.successMessageType
        · exact absurd ⟨horigin, hready, Or.inl hsucc⟩ hterm
        · by_cases herr : d.type_ = "error"
          · exact absurd ⟨horigin, hready, Or.inr herr⟩ hterm
          · rw [if_neg hready, if_neg (fun hc => hsucc hc.1),
              if_neg (fun hc => herr hc.1)]
            exact ⟨hs, hL, hI, hR⟩
    · rw [if_pos (show o ≠ cfg.walletUrl from horigin)]
      exact ⟨hs, hL, hI, hR⟩
  | closePoll => exact absurd trivial hterm

theorem foldlPopup_terminal_settles {α β : Type} (cfg : PopupConfig α β)
    (es : List (PopupEvent α)) : ∀ st : PopupState β, PopupInv st →
      (∃ e ∈ es, popupTerminal cfg e) →
      (es.foldl (stepPopup cfg) st).settlements ≠ [] := by
  induction es with
  | nil => intro st _ h; simp at h
  | cons e es ih =>
    intro st hinv hex
    rcases hinv with ⟨hs, hL, hI, hR⟩ | ⟨hs, hL, hI⟩
    · by_cases hterm : popupTerminal cfg e
      · have hne := stepPopup_settles cfg st e hL hI hR hterm
        obtain ⟨t, hext⟩ := foldlPopup_settlements_extend cfg es
          (stepPopup cfg st e)
        simp only [List.foldl_cons, hext]
        intro hempty
        exact hne (List.append_eq_nil.mp hempty).1
      · obtain ⟨hs', hL', hI', hR'⟩ :=
          stepPopup_live cfg st e hs hL hI hR hterm
        have hex' : ∃ e' ∈ es, popupTerminal cfg e' := by
          rcases hex with ⟨e', he', ht'⟩
          rcases List.mem_cons.mp he' with rfl | hmem
          · exact absurd ht' hterm
          · exact ⟨e', hmem, ht'⟩
        exact ih (stepPopup cfg st e) (Or.inl ⟨hs', hL', hI', hR'⟩) hex'
    · simp only [List.foldl_cons,
        stepPopup_frozen cfg st hL hI e, foldlPopup_frozen cfg es st hL hI]
      intro hempty
      rw [hempty] at hs
      simp at hs

theorem stepNative_settlements_extend {α β : Type} (cfg : NativeConfig α β)
    (st : NativeState β) (ev : NativeEvent α) :
    ∃ t, (stepNative cfg st ev).settlements = st.settlements ++ t := by
  cases ev with
  | frame d =>
    cases d with
    | none => exact ⟨[], by simp [stepNative]⟩
    | some d =>
      simp only [stepNative]
      split_ifs <;>
        first
        | exact ⟨[], (List.append_nil _).symm⟩
        | exact ⟨_, rfl⟩
  | sockError =>
    simp only [stepNative]
    split_ifs <;>
      first
      | exact ⟨[], (List.append_nil _).symm⟩
      | exact ⟨_, rfl⟩
  | sockClose =>
    simp only [stepNative]
    split_ifs <;>
      first
      | exact ⟨[], (List.append_nil _).symm⟩
      | exact ⟨_, rfl⟩

theorem foldlNative_settlements_extend {α β : Type} (cfg : NativeConfig α β)
    (es : List (NativeEvent α)) : ∀ st : NativeState β,
      ∃ t, (es.foldl (stepNative cfg) st).settlements
        = st.settlements ++ t := by
  induction es with
  | nil => intro st; exact ⟨[], by simp⟩
  | cons e es ih =>
    intro st
    obtain ⟨t1, h1⟩ := stepNative_settlements_extend cfg st e
    obtain ⟨t2, h2⟩ := ih (stepNative cfg st e)
    exact ⟨t1 ++ t2, by
      simp only [List.foldl_cons, h2, h1, List.append_assoc]⟩

theorem stepNative_inv {α β : Type} (cfg : NativeConfig α β)
    (st : NativeState β) (ev : NativeEvent α) :
    NativeInv st → NativeInv (stepNative cfg st ev) := by
  intro ⟨hr, hw⟩
  cases ev with
  | frame d =>
    cases d with
    | none => exact ⟨hr, hw⟩
    | some d =>
      simp only [stepNative]
      by_cases h1 : st.wsOpen = true
      · rw [if_neg (show ¬ ¬ st.wsOpen = true by simp [h1])]
        by_cases h2 : sessionTruthy d.sessionId = true
            ∧ ¬ st.resultReceived = true
        · rw [if_pos h2]
          exact ⟨hr, hw⟩
        · rw [if_neg h2]
          by_cases h3 : d.type_ = cfg.successMessageType
              ∧ ¬ st.resultReceived = true
          · rw [if_pos h3]
            constructor <;> (intro _; simp)
          · rw [if_neg h3]
            by_cases h4 : d.type_ = "error" ∧ ¬ st.resultReceived = true
            · rw [if_pos h4]
              constructor <;> (intro _; simp)
            · rw [if_neg h4]
              exact ⟨hr, hw⟩
      · rw [if_pos h1]
        exact ⟨hr, hw⟩
  | sockError =>
    simp only [stepNative]
    by_cases h1 : ¬ st.resultReceived = true
    · rw [if_pos h1]
      constructor <;> (intro _; simp)
    · rw [if_neg h1]
      exact ⟨hr, hw⟩
  | sockClose =>
    simp only [stepNative]
    by_cases h1 : ¬ st.resultReceived = true
    · rw [if_pos h1]
      constructor <;> (intro _; simp)
    · rw [if_neg h1]
      have hres : st.resultReceived = true := by simpa using h1
      exact ⟨fun _ => hr hres, fun _ => hr hres⟩

theorem foldlNative_inv {α β : Type} (cfg : NativeConfig α β)
    (es : List (NativeEvent α)) : ∀ st : NativeState β,
      NativeInv st → NativeInv (es.foldl (stepNative cfg) st) := by
  induction es with
  | nil => intro st h; exact h
  | cons e es ih =>
    intro st h
    exact ih _ (stepNative_inv cfg st e h)

theorem nativeInit_inv {β : Type} : NativeInv (nativeInit (β := β)) :=
  ⟨fun h => by simp [nativeInit] at h, fun h => by simp [nativeInit] at h⟩

theorem foldlNative_terminal_settles {α β : Type} (cfg : NativeConfig α β)
    (es : List (NativeEvent α)) : ∀ st : NativeState β, NativeInv st →
      (∃ e ∈ es, nativeTerminal cfg e) →
      (es.foldl (stepNative cfg) st).settlements ≠ [] := by
  induction es with
  | nil => intro st _ h; simp at h
  | cons e es ih =>
    intro st hinv hex
    have hmono : (stepNative cfg st e).settlements ≠ [] →
        ((e :: es).foldl (stepNative cfg) st).settlements ≠ [] := by
      intro hne
      obtain ⟨t, hext⟩ := foldlNative_settlements_extend cfg es
        (stepNative cfg st e)
      simp only [List.foldl_cons, hext]
      intro hempty
      exact hne (List.append_eq_nil.mp hempty).1
    by_cases hterm : nativeTerminal cfg e
    · apply hmono
      cases e with
      | frame d =>
        cases d with
        | none => exact absurd hterm (by simp [nativeTerminal])
        | some d =>
          obtain ⟨hsess, htype⟩ := hterm
          by_cases hws : st.wsOpen = true
          · by_cases hres : st.resultReceived = true
            · obtain ⟨t, hext⟩ := stepNative_settlements_extend cfg st
                (.frame (some d))
              rw [hext]
              intro hempty
              exact hinv.1 hres (List.append_eq_nil.mp hempty).1
            · have hres' : st.resultReceived = false := by
                simpa using hres
              simp only [stepNative, hws, hres']
              rw [if_neg (by simp), if_neg (by simp [hsess])]
              rcases htype with h | h
              · rw [if_pos ⟨h, by simp⟩]; simp
              · by_cases hsucc : d.type_ = cfg.successMessageType
                · rw [if_pos ⟨hsucc, by simp⟩]; simp
                · rw [if_neg (by simp [hsucc]), if_pos ⟨h, by simp⟩]; simp
          · have hws' : st.wsOpen = false := by simpa using hws
            obtain ⟨t, hext⟩ := stepNative_settlements_extend cfg st
              (.frame (some d))
            rw [hext]
            intro hempty
            exact hinv.2 hws' (List.append_eq_nil.mp hempty).1
      | sockError =>
        by_cases hres : st.resultReceived = true
        · obtain ⟨t, hext⟩ := stepNative_settlements_extend cfg st .sockError
          rw [hext]
          intro hempty
          exact hinv.1 hres (List.append_eq_nil.mp hempty).1
        · have hres' : st.resultReceived = false := by simpa using hres
          simp [stepNative, hres']
      | sockClose =>
        by_cases hres : st.resultReceived = true
        · obtain ⟨t, hext⟩ := stepNative_settlements_extend cfg st .sockClose
          rw [hext]
          intro hempty
          exact hinv.1 hres (List.append_eq_nil.mp hempty).1
        · have hres' : st.resultReceived = false := by simpa using hres
          simp [stepNative, hres']
    · have hex' : ∃ e' ∈ es, nativeTerminal cfg e' := by
        rcases hex with ⟨e', he', ht'⟩
        rcases List.mem_cons.mp he' with rfl | hmem
        · exact absurd ht' hterm
        · exact ⟨e', hmem, ht'⟩
      exact ih (stepNative cfg st e) (stepNative_inv cfg st e hinv) hex'

theorem head?_append_left {γ : Type} (l t : List γ) (h : l ≠ []) :
    (l ++ t).head? = l.head? := by
  cases l with
  | nil => exact absurd rfl h
  | cons a l => rfl

/-! ## Claim theorems -/

/-- C1: every challenge envelope built by `requestConnection` carries a
`version` of `"V2"`, a `signature` field that is the Ed25519 signature of
the ephemeral key encoded as `ed25519:<base58>`, and that signature
verifies against the envelope's `publicKey` field over the exact byte
sequence `nonce-decimal ++ "|" ++ message` (under the SHA-256 pre-hash both
protocol sides apply, per spec §3). -/
theorem requestConnection_envelope_signature_verifies (k : Nat)
    (networkId : String) (nonceMs : Nat) (message : String)
    (origin : String) :
    verifySignInEnvelope (buildSignInData k networkId nonceMs message origin)
        = true
      ∧ (buildSignInData k networkId nonceMs message origin).version = "V2"
      ∧ (buildSignInData k networkId nonceMs message origin).signature
        = "ed25519:" ++ base58Encode (ed25519SignBytes k (sha256Model
            (strBytes (toString nonceMs ++ "|" ++ message)))) := by
  refine ⟨?_, rfl, rfl⟩
  have hpk := base58_roundtrip (pubKeyBytes k) (pubKeyBytes_lt k)
  have hsig := base58_roundtrip
    (ed25519SignBytes k (sha256Model
      (strBytes (toString nonceMs ++ "|" ++ message))))
    (ed25519SignBytes_lt k _)
  unfold base58Decode at hpk hsig
  show verifySignInEnvelope
    { publicKey := "ed25519:" ++ base58Encode (pubKeyBytes k)
      networkId := networkId
      nonce := nonceMs
      message := message
      signature := "ed25519:" ++ base58Encode (ed25519SignBytes k
        (sha256Model (strBytes (toString nonceMs ++ "|" ++ message))))
      version := "V2"
      actualOrigin := origin } = true
  unfold verifySignInEnvelope
  simp only [stripEd25519Tag_append]
  rw [hpk, hsig]
  unfold ed25519VerifyBytes ed25519SignBytes
  simp

/-- C9: both hand-rolled codecs round-trip on every byte sequence,
including the empty sequence and sequences with leading zero bytes. -/
theorem codecs_roundtrip (bs : List Nat) (hbs : ∀ b ∈ bs, b < 256) :
    base58Decode (base58Encode bs) = some bs
      ∧ base64Decode (base64Encode bs) = some bs :=
  ⟨base58_roundtrip bs hbs, base64_roundtrip bs hbs⟩

theorem codecs_roundtrip_witness :
    (∀ b ∈ [0, 0, 7, 255, 16], b < 256)
      ∧ base58Decode (base58Encode [0, 0, 7, 255, 16])
          = some [0, 0, 7, 255, 16]
      ∧ base64Decode (base64Encode [0, 0, 7, 255, 16])
          = some [0, 0, 7, 255, 16] :=
  ⟨by decide, codecs_roundtrip [0, 0, 7, 255, 16] (by decide)⟩

/-- C2: each transport flow settles exactly once.  The popup flow never
records more than one settlement call, records exactly one when a terminal
event occurs, and is inert after its first settlement; the native flow's
promise outcome (its first settlement) is fixed once produced and is
produced whenever a terminal event occurs; and in both flows a success
message followed by a close event yields exactly the success resolution. -/
theorem transport_single_settlement {α β : Type}
    (cfg : PopupConfig α β) (events : List (PopupEvent α))
    (cfgN : NativeConfig α β) (eventsN : List (NativeEvent α))
    (d : MsgData α) (dn : NativeFrame α)
    (hterm : ∃ e ∈ events, popupTerminal cfg e)
    (htermN : ∃ e ∈ eventsN, nativeTerminal cfgN e)
    (hd : d.type_ = cfg.successMessageType) (hdr : d.type_ ≠ "ready")
    (hdn : dn.type_ = cfgN.successMessageType)
    (hdns : sessionTruthy dn.sessionId = false) :
    (∀ es : List (PopupEvent α), (runPopup cfg es).settlements.length ≤ 1)
      ∧ (runPopup cfg events).settlements.length = 1
      ∧ (∀ es more : List (PopupEvent α),
          (runPopup cfg es).settlements ≠ [] →
          runPopup cfg (es ++ more) = runPopup cfg es)
      ∧ (∀ es more : List (NativeEvent α), ∀ o : FlowOutcome β,
          (runNative cfgN es).settlements.head? = some o →
          (runNative cfgN (es ++ more)).settlements.head? = some o)
      ∧ ((runNative cfgN eventsN).settlements.head?).isSome = true
      ∧ (runPopup cfg [.message cfg.walletUrl d, .closePoll]).settlements
          = [successOutcome cfg d]
      ∧ (runNative cfgN [.frame (some dn), .sockClose]).settlements
          = [nativeSuccessOutcome cfgN dn] := by
  have hfrozen : ∀ es : List (PopupEvent α),
      (runPopup cfg es).settlements ≠ [] →
      (runPopup cfg es).listenerOn = false
        ∧ (runPopup cfg es).intervalOn = false := by
    intro es hne
    rcases runPopup_inv cfg es with ⟨hs, _, _, _⟩ | ⟨_, hL, hI⟩
    · exact absurd hs hne
    · exact ⟨hL, hI⟩
  refine ⟨?_, ?_, ?_, ?_, ?_, ?_, ?_⟩
  · intro es
    rcases runPopup_inv cfg es with ⟨hs, _, _, _⟩ | ⟨hlen, _, _⟩
    · simp [hs]
    · omega
  · have hne := foldlPopup_terminal_settles cfg events popupInit
      popupInit_inv hterm
    rcases runPopup_inv cfg events with ⟨hs, _, _, _⟩ | ⟨hlen, _, _⟩
    · exact absurd hs hne
    · exact hlen
  · intro es more hne
    obtain ⟨hL, hI⟩ := hfrozen es hne
    show (es ++ more).foldl (stepPopup cfg) popupInit = runPopup cfg es
    rw [List.foldl_append]
    exact foldlPopup_frozen cfg more (runPopup cfg es) hL hI
  · intro es more o ho
    have hne : (runNative cfgN es).settlements ≠ [] := by
      intro hempty
      rw [hempty] at ho
      exact Option.noConfusion ho
    show ((es ++ more).foldl (stepNative cfgN) nativeInit).settlements.head?
      = some o
    rw [List.foldl_append]
    rw [show List.foldl (stepNative cfgN) nativeInit es = runNative cfgN es
      from rfl]
    obtain ⟨t, hext⟩ := foldlNative_settlements_extend cfgN more
      (runNative cfgN es)
    rw [hext, head?_append_left _ _ hne]
    exact ho
  · have hne := foldlNative_terminal_settles cfgN eventsN nativeInit
      nativeInit_inv htermN
    cases hcase : (runNative cfgN eventsN).settlements with
    | nil => exact absurd hcase hne
    | cons a t => simp [hcase]
  · show (stepPopup cfg (stepPopup cfg popupInit
      (.message cfg.walletUrl d)) .closePoll).settlements = _
    have hready : cfg.successMessageType ≠ "ready" := hd ▸ hdr
    have h1 : stepPopup cfg popupInit (.message cfg.walletUrl d)
        = { listenerOn := false, intervalOn := false, resultReceived := true,
            posted := [], settlements := [successOutcome cfg d] } := by
      simp [stepPopup, popupInit, hd, hready]
    rw [h1]
    rw [stepPopup_frozen cfg _ rfl rfl .closePoll]
  · show (stepNative cfgN (stepNative cfgN nativeInit
      (.frame (some dn))) .sockClose).settlements = _
    have h1 : stepNative cfgN nativeInit (.frame (some dn))
        = { wsOpen := false, resultReceived := true, sentPayload := false,
            deepLinked := false,
            settlements := [nativeSuccessOutcome cfgN dn] } := by
      simp [stepNative, nativeInit, hdn, hdns]
    rw [h1]
    simp [stepNative]

theorem transport_single_settlement_witness :
    (∃ e ∈ [PopupEvent.closePoll (α := Unit)], popupTerminal popupCfgW e)
    ∧ (∃ e ∈ [NativeEvent.sockClose (α := Unit)], nativeTerminal nativeCfgW e)
    ∧ msgW.type_ = popupCfgW.successMessageType
    ∧ msgW.type_ ≠ "ready"
    ∧ frameW.type_ = nativeCfgW.successMessageType
    ∧ sessionTruthy frameW.sessionId = false
    ∧ ((∀ es : List (PopupEvent Unit),
          (runPopup popupCfgW es).settlements.length ≤ 1)
      ∧ (runPopup popupCfgW [.closePoll]).settlements.length = 1
      ∧ (∀ es more : List (PopupEvent Unit),
          (runPopup popupCfgW es).settlements ≠ [] →
          runPopup popupCfgW (es ++ more) = runPopup popupCfgW es)
      ∧ (∀ es more : List (NativeEvent Unit), ∀ o : FlowOutcome Unit,
          (runNative nativeCfgW es).settlements.head? = some o →
          (runNative nativeCfgW (es ++ more)).settlements.head? = some o)
      ∧ ((runNative nativeCfgW [.sockClose]).settlements.head?).isSome = true
      ∧ (runPopup popupCfgW
            [.message popupCfgW.walletUrl msgW, .closePoll]).settlements
          = [successOutcome popupCfgW msgW]
      ∧ (runNative nativeCfgW
            [.frame (some frameW), .sockClose]).settlements
          = [nativeSuccessOutcome nativeCfgW frameW]) :=
  ⟨⟨.closePoll, by simp, trivial⟩, ⟨.sockClose, by simp, trivial⟩,
    rfl, by decide, rfl, rfl,
    transport_single_settlement popupCfgW [.closePoll] nativeCfgW
      [.sockClose] msgW frameW ⟨.closePoll, by simp, trivial⟩
      ⟨.sockClose, by simp, trivial⟩ rfl (by decide) rfl rfl⟩

theorem storeSet_same (s : Store) (k : String) (v : StoredVal) :
    storeSet s k v k = some v := by simp [storeSet]

theorem storeSet_other (s : Store) (k : String) (v : StoredVal)
    (k' : String) (h : k' ≠ k) : storeSet s k v k' = s k' := by
  simp [storeSet, h]

theorem storeRemove_same (s : Store) (k : String) :
    storeRemove s k k = none := by simp [storeRemove]

theorem storeRemove_other (s : Store) (k k' : String) (h : k' ≠ k) :
    storeRemove s k k' = s k' := by simp [storeRemove, h]

/-- C3: during establishment the four keys are written in the fixed
order private key → wallet endpoint → bridge endpoint → account id, so
starting from a store with no account id, every intermediate store state
satisfies "account id present → the other three keys present"; and a
reader (`loadFrom`) that finds no account id observes no session. -/
theorem establishment_write_order (s0 : Store) (keyId : Nat)
    (wUrl bUrl accId : String)
    (h0 : s0 STORAGE_KEY_ACCOUNT_ID = none) :
    (∀ s ∈ writeStates s0
        (establishWrites (.jwk keyId) wUrl bUrl accId),
      s STORAGE_KEY_ACCOUNT_ID ≠ none →
        s STORAGE_KEY_APP_PRIVATE_KEY ≠ none
          ∧ s STORAGE_KEY_WALLET_URL ≠ none
          ∧ s STORAGE_KEY_LOGOUT_BRIDGE_URL ≠ none)
    ∧ (∀ s : Store, s STORAGE_KEY_ACCOUNT_ID = none →
        (loadFrom s).connectedAccount = none) := by
  constructor
  · intro s hs
    simp only [writeStates, establishWrites, List.scanl, List.mem_cons,
      List.mem_singleton, List.not_mem_nil, or_false] at hs
    have hid : STORAGE_KEY_ACCOUNT_ID ≠ STORAGE_KEY_APP_PRIVATE_KEY := by
      decide
    have hid2 : STORAGE_KEY_ACCOUNT_ID ≠ STORAGE_KEY_WALLET_URL := by decide
    have hid3 : STORAGE_KEY_ACCOUNT_ID ≠ STORAGE_KEY_LOGOUT_BRIDGE_URL := by
      decide
    rcases hs with rfl | rfl | rfl | rfl | rfl
    · intro hacc; exact absurd h0 hacc
    · intro hacc
      rw [storeSet_other _ _ _ _ hid] at hacc
      exact absurd h0 hacc
    · intro hacc
      rw [storeSet_other _ _ _ _ hid2, storeSet_other _ _ _ _ hid] at hacc
      exact absurd h0 hacc
    · intro hacc
      rw [storeSet_other _ _ _ _ hid3, storeSet_other _ _ _ _ hid2,
        storeSet_other _ _ _ _ hid] at hacc
      exact absurd h0 hacc
    · intro _
      refine ⟨?_, ?_, ?_⟩
      · rw [storeSet_other _ _ _ _ (by decide),
          storeSet_other _ _ _ _ (by decide),
          storeSet_other _ _ _ _ (by decide), storeSet_same]
        simp
      · rw [storeSet_other _ _ _ _ (by decide),
          storeSet_other _ _ _ _ (by decide), storeSet_same]
        simp
      · rw [storeSet_other _ _ _ _ (by decide), storeSet_same]
        simp
  · intro s hs
    simp [loadFrom, hs, truthyVal]

theorem establishment_write_order_witness :
    emptyStore STORAGE_KEY_ACCOUNT_ID = none
    ∧ ((∀ s ∈ writeStates emptyStore
          (establishWrites (.jwk 5) "https://wallet.intear.tech"
            "wss://logout-bridge-service.intear.tech" "alice.near"),
        s STORAGE_KEY_ACCOUNT_ID ≠ none →
          s STORAGE_KEY_APP_PRIVATE_KEY ≠ none
            ∧ s STORAGE_KEY_WALLET_URL ≠ none
            ∧ s STORAGE_KEY_LOGOUT_BRIDGE_URL ≠ none)
      ∧ (∀ s : Store, s STORAGE_KEY_ACCOUNT_ID = none →
          (loadFrom s).connectedAccount = none)) :=
  ⟨rfl, establishment_write_order emptyStore 5 "https://wallet.intear.tech"
    "wss://logout-bridge-service.intear.tech" "alice.near" rfl⟩

/-- Any flow whose success type is not `"error"` settles an error-typed
wallet message through the error branch. -/
theorem runPopup_error_event {α β : Type} (cfg : PopupConfig α β)
    (msg : String) (payload : α) (hsucc : cfg.successMessageType ≠ "error") :
    (runPopup cfg [.message cfg.walletUrl
      { type_ := "error", message := msg, payload := payload }]).settlements
      = [errorOutcome cfg.isUserRejection msg β] := by
  have herr : ("error" : String) ≠ cfg.successMessageType :=
    fun h => hsucc h.symm
  show (stepPopup cfg popupInit (.message cfg.walletUrl
    { type_ := "error", message := msg, payload := payload })).settlements
    = [errorOutcome cfg.isUserRejection msg β]
  simp [stepPopup, popupInit, herr]

/-- C4 (counterexample to the claim as stated): when the wallet reports
`{type:"error", message:""}` — a message different from every rejection
text — the connection flow fails with the fallback text
`"Operation failed"`, not with an error carrying the wallet's (empty)
message text. -/
theorem wallet_error_empty_message_counterexample :
    (runPopup popupCfgW
      [.message "https://wallet.intear.tech"
        { type_ := "error", message := "", payload := () }]).settlements
      = [FlowOutcome.failure "Operation failed"]
    ∧ ("" : String) ≠ "User rejected the connection"
    ∧ FlowOutcome.failure (β := Unit) "Operation failed"
        ≠ FlowOutcome.failure "" := by
  refine ⟨by decide, by decide, by decide⟩

/-- C4 (amended): on a wallet `{type:"error", message}` answer the
operation resolves to the `null` sentinel iff `message` exactly equals the
operation's rejection text ("User rejected the connection" /
"User rejected the signature" / "User rejected the transactions"); any
other nonempty message fails with an error carrying the wallet's message
text, and an empty (or absent) message fails with the fallback text
`"Operation failed"`. -/
theorem wallet_error_resolution {α β : Type}
    (cfgC cfgS cfgT : PopupConfig α β) (msg : String) (payload : α)
    (hC : cfgC.isUserRejection = some isUserRejectionConnection)
    (hCs : cfgC.successMessageType = "connected")
    (hS : cfgS.isUserRejection = some isUserRejectionSignature)
    (hSs : cfgS.successMessageType = "signed")
    (hT : cfgT.isUserRejection = some isUserRejectionTransactions)
    (hTs : cfgT.successMessageType = "sent") :
    ((runPopup cfgC [.message cfgC.walletUrl
        { type_ := "error", message := msg, payload := payload }]).settlements
      = [if msg = "User rejected the connection" then FlowOutcome.sentinel
         else .failure (if msg = "" then "Operation failed" else msg)])
    ∧ ((runPopup cfgC [.message cfgC.walletUrl
        { type_ := "error", message := msg, payload := payload }]).settlements
          = [FlowOutcome.sentinel]
        ↔ msg = "User rejected the connection")
    ∧ ((runPopup cfgS [.message cfgS.walletUrl
        { type_ := "error", message := msg, payload := payload }]).settlements
      = [if msg = "User rejected the signature" then FlowOutcome.sentinel
         else .failure (if msg = "" then "Operation failed" else msg)])
    ∧ ((runPopup cfgT [.message cfgT.walletUrl
        { type_ := "error", message := msg, payload := payload }]).settlements
      = [if msg = "User rejected the transactions" then FlowOutcome.sentinel
         else .failure (if msg = "" then "Operation failed" else msg)]) := by
  have hmainC := runPopup_error_event cfgC msg payload (by rw [hCs]; decide)
  have hmainS := runPopup_error_event cfgS msg payload (by rw [hSs]; decide)
  have hmainT := runPopup_error_event cfgT msg payload (by rw [hTs]; decide)
  rw [hC] at hmainC
  rw [hS] at hmainS
  rw [hT] at hmainT
  refine ⟨?_, ?_, ?_, ?_⟩
  · rw [hmainC]
    unfold errorOutcome rejects isUserRejectionConnection
    by_cases hmsg : msg = "User rejected the connection" <;> simp [hmsg]
  · rw [hmainC]
    unfold errorOutcome rejects isUserRejectionConnection
    by_cases hmsg : msg = "User rejected the connection" <;> simp [hmsg]
  · rw [hmainS]
    unfold errorOutcome rejects isUserRejectionSignature
    by_cases hmsg : msg = "User rejected the signature" <;> simp [hmsg]
  · rw [hmainT]
    unfold errorOutcome rejects isUserRejectionTransactions
    by_cases hmsg : msg = "User rejected the transactions" <;> simp [hmsg]

theorem wallet_error_resolution_witness :
    popupCfgW.isUserRejection = some isUserRejectionConnection
    ∧ popupCfgW.successMessageType = "connected"
    ∧ (((runPopup popupCfgW [.message popupCfgW.walletUrl
          { type_ := "error", message := "User rejected the connection",
            payload := () }]).settlements
        = [if "User rejected the connection"
              = "User rejected the connection" then FlowOutcome.sentinel
           else .failure (if "User rejected the connection" = ""
              then "Operation failed" else "User rejected the connection")])
      ∧ (((runPopup popupCfgW [.message popupCfgW.walletUrl
          { type_ := "error", message := "User rejected the connection",
            payload := () }]).settlements = [FlowOutcome.sentinel])
          ↔ "User rejected the connection" = "User rejected the connection")
      ∧ ((runPopup popupCfgSignW [.message popupCfgSignW.walletUrl
          { type_ := "error", message := "User rejected the connection",
            payload := () }]).settlements
        = [if "User rejected the connection"
              = "User rejected the signature" then FlowOutcome.sentinel
           else .failure (if "User rejected the connection" = ""
              then "Operation failed" else "User rejected the connection")])
      ∧ ((runPopup popupCfgTxW [.message popupCfgTxW.walletUrl
          { type_ := "error", message := "User rejected the connection",
            payload := () }]).settlements
        = [if "User rejected the connection"
              = "User rejected the transactions" then FlowOutcome.sentinel
           else .failure (if "User rejected the connection" = ""
              then "Operation failed" else "User rejected the connection")])) :=
  ⟨rfl, rfl,
    wallet_error_resolution popupCfgW popupCfgSignW popupCfgTxW
      "User rejected the connection" () rfl rfl rfl rfl rfl rfl⟩

/-- C5: the precondition errors of `requestConnection` and
`signMessage` fail before any transport channel is opened — the recorded
effect traces contain no popup, no WebSocket and (for `requestConnection`)
no key generation. -/
theorem preconditions_fail_fast
    (st1 : ConnectorState) (opts1 : ConnectionOptions)
    (hconn : st1.connectedAccount.isSome = true)
    (st2 : ConnectorState) (opts2 : ConnectionOptions) (m : Nep413Payload)
    (hnc : st2.connectedAccount = none) (hm : m.nonce.length ≠ 32)
    (hopts2 : opts2.messageToSign = some m)
    (hdisc : ConnectedAccount) (hd : hdisc.disconnected = true)
    (conn : ConnectorState) (store : Store) (mAny m32 : Nep413Payload)
    (hlive : ConnectedAccount) (hl : hlive.disconnected = false)
    (h32 : m32.nonce.length = 32)
    (hwallet : falsyStr conn.walletUrl = false)
    (hbridge : falsyStr conn.logoutBridgeUrl = false)
    (hkey : store STORAGE_KEY_APP_PRIVATE_KEY = none) :
    requestConnectionSteps st1 opts1 = ([], some "Already connected")
    ∧ requestConnectionSteps st2 opts2 = ([], some "Nonce must be 32 bytes")
    ∧ signMessageSteps hdisc conn store mAny
        = ([], some "Account is disconnected")
    ∧ signMessageSteps hlive conn store m
        = ([], some "Nonce must be 32 bytes")
    ∧ signMessageSteps hlive conn store m32
        = ([Effect.storageGet STORAGE_KEY_APP_PRIVATE_KEY],
            some "Private key not found in storage")
    ∧ (∀ tr : List Effect,
        tr = [] ∨ tr = [Effect.storageGet STORAGE_KEY_APP_PRIVATE_KEY] →
        Effect.openPopup ∉ tr ∧ Effect.openWebSocket ∉ tr
          ∧ Effect.keyGen ∉ tr) := by
  refine ⟨?_, ?_, ?_, ?_, ?_, ?_⟩
  · simp [requestConnectionSteps, hconn]
  · simp [requestConnectionSteps, hnc, hopts2, hm]
  · simp [signMessageSteps, hd]
  · simp [signMessageSteps, hl, hm]
  · simp [signMessageSteps, hl, h32, hwallet, hbridge, hkey, truthyVal]
  · intro tr htr
    rcases htr with rfl | rfl <;> simp

theorem preconditions_fail_fast_witness :
    connW.connectedAccount.isSome = true
    ∧ connEmptyW.connectedAccount = none
    ∧ nep1W.nonce.length ≠ 32
    ∧ optsBadNonceW.messageToSign = some nep1W
    ∧ acctDiscW.disconnected = true
    ∧ acctLiveW.disconnected = false
    ∧ nep32W.nonce.length = 32
    ∧ falsyStr connEndpointsW.walletUrl = false
    ∧ falsyStr connEndpointsW.logoutBridgeUrl = false
    ∧ emptyStore STORAGE_KEY_APP_PRIVATE_KEY = none
    ∧ (requestConnectionSteps connW optsEmptyW
        = ([], some "Already connected")
      ∧ requestConnectionSteps connEmptyW optsBadNonceW
          = ([], some "Nonce must be 32 bytes")
      ∧ signMessageSteps acctDiscW connEndpointsW emptyStore nep32W
          = ([], some "Account is disconnected")
      ∧ signMessageSteps acctLiveW connEndpointsW emptyStore nep1W
          = ([], some "Nonce must be 32 bytes")
      ∧ signMessageSteps acctLiveW connEndpointsW emptyStore nep32W
          = ([Effect.storageGet STORAGE_KEY_APP_PRIVATE_KEY],
              some "Private key not found in storage")
      ∧ (∀ tr : List Effect,
          tr = [] ∨ tr = [Effect.storageGet STORAGE_KEY_APP_PRIVATE_KEY] →
          Effect.openPopup ∉ tr ∧ Effect.openWebSocket ∉ tr
            ∧ Effect.keyGen ∉ tr)) :=
  ⟨rfl, rfl, by decide, rfl, rfl, rfl, by decide, rfl, rfl, rfl,
    preconditions_fail_fast connW optsEmptyW rfl connEmptyW optsBadNonceW
      nep1W rfl (by decide) rfl acctDiscW rfl connEndpointsW emptyStore
      nep32W nep32W acctLiveW rfl (by decide) rfl rfl rfl⟩

theorem applyWrites_establish_walletUrl (store : Store) (pk : StoredVal)
    (w b a : String) :
    applyWrites store (establishWrites pk w b a) STORAGE_KEY_WALLET_URL
      = some (.str w) := by
  simp only [applyWrites, establishWrites, List.foldl]
  rw [storeSet_other _ _ _ _ (by decide), storeSet_other _ _ _ _ (by decide),
    storeSet_same]

/-- C6: on a successful connection, the persisted and in-memory wallet
endpoint is the native marker verbatim when the caller requested native
transport, and otherwise the `walletUrl` of the wallet's `connected`
response — never the caller-supplied option. -/
theorem connected_wallet_endpoint (requested logoutB : String)
    (keyId : Nat) (mts : Option Nep413Payload) (store : Store)
    (data : ConnectedResponse) (conn' : ConnectorState) (store' : Store)
    (res : ConnectionResultModel)
    (hok : connectOnSuccess requested logoutB keyId mts store data
      = .ok (conn', store', res)) :
    conn'.walletUrl = some (if requested = INTEAR_NATIVE_WALLET_URL
        then requested else data.walletUrl)
      ∧ store' STORAGE_KEY_WALLET_URL
        = some (.str (if requested = INTEAR_NATIVE_WALLET_URL
            then requested else data.walletUrl))
      ∧ (requested = INTEAR_NATIVE_WALLET_URL →
          conn'.walletUrl = some INTEAR_NATIVE_WALLET_URL) := by
  simp only [connectOnSuccess] at hok
  split at hok
  · exact absurd hok (by simp)
  · exact absurd hok (by simp)
  · rename_i a0 rest heq
    split at hok
    · simp only [Except.ok.injEq, Prod.mk.injEq] at hok
      obtain ⟨hconn, hstore, _⟩ := hok
      subst hconn hstore
      refine ⟨rfl, applyWrites_establish_walletUrl _ _ _ _ _, ?_⟩
      intro hnat
      simp [hnat]
    · split at hok
      · exact absurd hok (by simp)
      · split at hok
        · exact absurd hok (by simp)
        · split at hok
          · exact absurd hok (by simp)
          · simp only [Except.ok.injEq, Prod.mk.injEq] at hok
            obtain ⟨hconn, hstore, _⟩ := hok
            subst hconn hstore
            refine ⟨rfl, applyWrites_establish_walletUrl _ _ _ _ _, ?_⟩
            intro hnat
            simp [hnat]

theorem connected_wallet_endpoint_witness :
    connectOnSuccess "https://wallet.intear.tech"
        "wss://logout-bridge-service.intear.tech" 5 none emptyStore
        connectedDataW = .ok (connAfterW, storeAfterW, resAfterW)
    ∧ (connAfterW.walletUrl
        = some (if "https://wallet.intear.tech" = INTEAR_NATIVE_WALLET_URL
            then "https://wallet.intear.tech" else connectedDataW.walletUrl)
      ∧ storeAfterW STORAGE_KEY_WALLET_URL
        = some (.str (if "https://wallet.intear.tech"
              = INTEAR_NATIVE_WALLET_URL
            then "https://wallet.intear.tech" else connectedDataW.walletUrl))
      ∧ ("https://wallet.intear.tech" = INTEAR_NATIVE_WALLET_URL →
          connAfterW.walletUrl = some INTEAR_NATIVE_WALLET_URL)) := by
  have hok : connectOnSuccess "https://wallet.intear.tech"
      "wss://logout-bridge-service.intear.tech" 5 none emptyStore
      connectedDataW = .ok (connAfterW, storeAfterW, resAfterW) := by
    simp [connectOnSuccess, connectedDataW, connAfterW, storeAfterW,
      resAfterW, acctLiveW, INTEAR_NATIVE_WALLET_URL]
  exact ⟨hok, connected_wallet_endpoint "https://wallet.intear.tech"
    "wss://logout-bridge-service.intear.tech" 5 none emptyStore
    connectedDataW _ _ _ hok⟩

/-- C7: a `connected` success payload with a missing or empty account
list makes `requestConnection` fail, and so does a payload without a
`signedMessage` when a message to sign was supplied — protocol violations
are surfaced as errors, never defaulted. -/
theorem wallet_protocol_violations (requested logoutB : String)
    (keyId : Nat) (mts : Option Nep413Payload) (m : Nep413Payload)
    (store : Store) (data1 data2 data3 : ConnectedResponse)
    (h1 : data1.accounts = none) (h2 : data2.accounts = some [])
    (a0 : WalletAccount) (rest : List WalletAccount)
    (h3 : data3.accounts = some (a0 :: rest))
    (h3s : data3.signedMessage = none) :
    connectOnSuccess requested logoutB keyId mts store data1
      = .error "No accounts returned from wallet, this should never happen, a bug on wallet side"
    ∧ connectOnSuccess requested logoutB keyId mts store data2
      = .error "No accounts returned from wallet, this should never happen, a bug on wallet side"
    ∧ connectOnSuccess requested logoutB keyId (some m) store data3
      = .error "No signed message returned from wallet, this should never happen, a bug on wallet side" := by
  refine ⟨?_, ?_, ?_⟩
  · simp [connectOnSuccess, h1]
  · simp [connectOnSuccess, h2]
  · simp [connectOnSuccess, h3, h3s]

theorem wallet_protocol_violations_witness :
    dataNoAccountsW.accounts = none
    ∧ dataEmptyAccountsW.accounts = some []
    ∧ connectedDataW.accounts = some [{ accountId := "alice.near" }]
    ∧ connectedDataW.signedMessage = none
    ∧ (connectOnSuccess "https://w" "wss://b" 5 none emptyStore
          dataNoAccountsW
        = .error "No accounts returned from wallet, this should never happen, a bug on wallet side"
      ∧ connectOnSuccess "https://w" "wss://b" 5 none emptyStore
          dataEmptyAccountsW
        = .error "No accounts returned from wallet, this should never happen, a bug on wallet side"
      ∧ connectOnSuccess "https://w" "wss://b" 5 (some nep32W) emptyStore
          connectedDataW
        = .error "No signed message returned from wallet, this should never happen, a bug on wallet side") :=
  ⟨rfl, rfl, rfl, rfl,
    wallet_protocol_violations "https://w" "wss://b" 5 none nep32W
      emptyStore dataNoAccountsW dataEmptyAccountsW connectedDataW rfl rfl
      { accountId := "alice.near" } [] rfl rfl⟩

/-- C8: `disconnect` on an active session marks the handle
disconnected (and the only handle-mutating operation only ever sets the
flag to `true`), clears both in-memory endpoints and removes all four
persisted keys — with no store precondition, so removals of already-absent
keys cannot fail; `disconnect` with no session fails with the
not-connected error; and a disconnected handle makes `signMessage` and
`sendTransactions` fail forever after. -/
theorem disconnect_behaviour (st : ConnectorState) (store : Store)
    (h : ConnectedAccount) (hc : st.connectedAccount = some h)
    (stNone : ConnectorState) (hnone : stNone.connectedAccount = none)
    (hDisc : ConnectedAccount) (hd : hDisc.disconnected = true)
    (conn2 : ConnectorState) (store2 : Store) (m : Nep413Payload) :
    (∃ conn' store' h', disconnect st store = .ok (conn', store', h')
      ∧ h'.disconnected = true ∧ h'.accountId = h.accountId
      ∧ conn'.connectedAccount = none ∧ conn'.walletUrl = none
      ∧ conn'.logoutBridgeUrl = none
      ∧ store' STORAGE_KEY_ACCOUNT_ID = none
      ∧ store' STORAGE_KEY_APP_PRIVATE_KEY = none
      ∧ store' STORAGE_KEY_WALLET_URL = none
      ∧ store' STORAGE_KEY_LOGOUT_BRIDGE_URL = none)
    ∧ disconnect stNone store = .error "Account is not connected"
    ∧ (signMessageSteps hDisc conn2 store2 m).2
        = some "Account is disconnected"
    ∧ (sendTransactionsSteps hDisc conn2 store2).2
        = some "Account is disconnected"
    ∧ (∀ (st' : ConnectorState) (store' : Store)
        (c' : ConnectorState) (s' : Store) (h' : ConnectedAccount),
        disconnect st' store' = .ok (c', s', h') →
        h'.disconnected = true) := by
  refine ⟨?_, ?_, ?_, ?_, ?_⟩
  · refine ⟨{ connectedAccount := none, walletUrl := none, logoutBridgeUrl := none },
      storeRemove (storeRemove (storeRemove
        (storeRemove store STORAGE_KEY_ACCOUNT_ID)
        STORAGE_KEY_APP_PRIVATE_KEY) STORAGE_KEY_WALLET_URL)
        STORAGE_KEY_LOGOUT_BRIDGE_URL,
      { h with disconnected := true },
      ?_, rfl, rfl, rfl, rfl, rfl, ?_, ?_, ?_, ?_⟩
    · simp [disconnect, hc]
    · rw [storeRemove_other _ _ _ (by decide),
        storeRemove_other _ _ _ (by decide),
        storeRemove_other _ _ _ (by decide), storeRemove_same]
    · rw [storeRemove_other _ _ _ (by decide),
        storeRemove_other _ _ _ (by decide), storeRemove_same]
    · rw [storeRemove_other _ _ _ (by decide), storeRemove_same]
    · rw [storeRemove_same]
  · simp [disconnect, hnone]
  · simp [signMessageSteps, hd]
  · simp [sendTransactionsSteps, hd]
  · intro st' store' c' s' h' hok
    unfold disconnect at hok
    split at hok
    · simp only [Except.ok.injEq, Prod.mk.injEq] at hok
      obtain ⟨_, _, hh⟩ := hok
      subst hh
      rfl
    · exact absurd hok (by simp)

theorem disconnect_behaviour_witness :
    connW.connectedAccount = some acctLiveW
    ∧ connEmptyW.connectedAccount = none
    ∧ acctDiscW.disconnected = true
    ∧ ((∃ conn' store' h', disconnect connW emptyStore
          = .ok (conn', store', h')
        ∧ h'.disconnected = true ∧ h'.accountId = acctLiveW.accountId
        ∧ conn'.connectedAccount = none ∧ conn'.walletUrl = none
        ∧ conn'.logoutBridgeUrl = none
        ∧ store' STORAGE_KEY_ACCOUNT_ID = none
        ∧ store' STORAGE_KEY_APP_PRIVATE_KEY = none
        ∧ store' STORAGE_KEY_WALLET_URL = none
        ∧ store' STORAGE_KEY_LOGOUT_BRIDGE_URL = none)
      ∧ disconnect connEmptyW emptyStore
          = .error "Account is not connected"
      ∧ (signMessageSteps acctDiscW connEndpointsW emptyStore nep32W).2
          = some "Account is disconnected"
      ∧ (sendTransactionsSteps acctDiscW connEndpointsW emptyStore).2
          = some "Account is disconnected"
      ∧ (∀ (st' : ConnectorState) (store' : Store)
          (c' : ConnectorState) (s' : Store) (h' : ConnectedAccount),
          disconnect st' store' = .ok (c', s', h') →
          h'.disconnected = true)) :=
  ⟨rfl, rfl, rfl,
    disconnect_behaviour connW emptyStore acctLiveW rfl connEmptyW rfl
      acctDiscW rfl connEndpointsW emptyStore nep32W⟩

/-- C10: `signMessage` and `sendTransactions` fail with
"Wallet URL not available" whenever the in-memory wallet or bridge
endpoint is falsy (the bridge endpoint is required even when the wallet
endpoint selects popup transport); a connector rehydrated from a store
holding only an account id exposes a live connected account on which both
operations fail with exactly that error. -/
theorem wallet_url_required (conn : ConnectorState) (h : ConnectedAccount)
    (store : Store) (m : Nep413Payload)
    (hfalsy : falsyStr conn.walletUrl = true
      ∨ falsyStr conn.logoutBridgeUrl = true)
    (hdisc : h.disconnected = false) (hnonce : m.nonce.length = 32)
    (storeR : Store) (accId : String)
    (hacc : storeR STORAGE_KEY_ACCOUNT_ID = some (.str accId))
    (haccne : accId ≠ "")
    (hw : storeR STORAGE_KEY_WALLET_URL = none)
    (hb : storeR STORAGE_KEY_LOGOUT_BRIDGE_URL = none) :
    (signMessageSteps h conn store m).2 = some "Wallet URL not available"
    ∧ (sendTransactionsSteps h conn store).2
        = some "Wallet URL not available"
    ∧ (loadFrom storeR).connectedAccount
        = some { accountId := accId, disconnected := false }
    ∧ (signMessageSteps { accountId := accId, disconnected := false }
        (loadFrom storeR) storeR m).2 = some "Wallet URL not available"
    ∧ (sendTransactionsSteps { accountId := accId, disconnected := false }
        (loadFrom storeR) storeR).2 = some "Wallet URL not available" := by
  have hfal : (falsyStr conn.walletUrl = true
      ∨ falsyStr conn.logoutBridgeUrl = true) := hfalsy
  have hload : (loadFrom storeR).walletUrl = none := by
    simp [loadFrom, hw, valToStrOpt]
  refine ⟨?_, ?_, ?_, ?_, ?_⟩
  · rcases hfal with hf | hf <;> simp [signMessageSteps, hdisc, hnonce, hf]
  · rcases hfal with hf | hf <;> simp [sendTransactionsSteps, hdisc, hf]
  · simp [loadFrom, hacc, truthyVal, haccne, valAsString]
  · simp [signMessageSteps, hnonce, hload, falsyStr]
  · simp [sendTransactionsSteps, hload, falsyStr]

theorem wallet_url_required_witness :
    (falsyStr connW.walletUrl = true
      ∨ falsyStr connW.logoutBridgeUrl = true)
    ∧ acctLiveW.disconnected = false
    ∧ nep32W.nonce.length = 32
    ∧ storeRehydratedW STORAGE_KEY_ACCOUNT_ID = some (.str "alice.near")
    ∧ ("alice.near" : String) ≠ ""
    ∧ storeRehydratedW STORAGE_KEY_WALLET_URL = none
    ∧ storeRehydratedW STORAGE_KEY_LOGOUT_BRIDGE_URL = none
    ∧ ((signMessageSteps acctLiveW connW storeRehydratedW nep32W).2
        = some "Wallet URL not available"
      ∧ (sendTransactionsSteps acctLiveW connW storeRehydratedW).2
          = some "Wallet URL not available"
      ∧ (loadFrom storeRehydratedW).connectedAccount
          = some { accountId := "alice.near", disconnected := false }
      ∧ (signMessageSteps { accountId := "alice.near", disconnected := false }
          (loadFrom storeRehydratedW) storeRehydratedW nep32W).2
          = some "Wallet URL not available"
      ∧ (sendTransactionsSteps
          { accountId := "alice.near", disconnected := false }
          (loadFrom storeRehydratedW) storeRehydratedW).2
          = some "Wallet URL not available") :=
  ⟨Or.inl rfl, rfl, by decide, by decide, by decide, by decide, by decide,
    wallet_url_required connW acctLiveW storeRehydratedW nep32W
      (Or.inl rfl) rfl (by decide) storeRehydratedW "alice.near"
      (by decide) (by decide) (by decide) (by decide)⟩

end IntearWallet
